import Mathlib

/-!
Shallow embedding of the move-selection AI engine of the BR1 chain-reaction game.

The repository ships two parameterizations of the same engine:
* `src/client/src/lib/aiPlayer.ts` — the extended tuning (power-up override,
  rival targeting, fixed top-3 sampling); embedded below in namespace `AiPlayer`.
* `src/unnamed/part_000` — the simpler tuning (no override, riskTaking-derived
  top-k sampling); embedded below in namespace `Part000`.

Definitions shared verbatim by both files (the move validator, the neighbor
enumeration, the chain-reaction potential estimator and the territory/defense
sections of the evaluator) are embedded once at top level.

JavaScript `number` scores are modelled as `ℚ`; each call to `Math.random()`
is modelled by consuming the next value of an explicit stream `Nat → ℚ`
threaded through the computation (theorems that depend on the range of
`Math.random()` hypothesise that every stream value lies in `[0, 1)`).
-/

inductive PLAYER where
  | red
  | blue
  | orange
  | black
deriving DecidableEq, Repr

/-- One board cell: `player` is `null | PLAYER` in the source, `atoms` a count. -/
structure GridCell where
  player : Option PLAYER
  atoms : Nat
deriving DecidableEq, Repr

/-- A headquarters cell from the HQ/base game mode. -/
structure HQCell where
  row : Nat
  col : Nat
  player : PLAYER
  health : Int
deriving DecidableEq, Repr

inductive PowerUpType where
  | diamond
  | heart
deriving DecidableEq, Repr

/-- A collectible power-up; the source field is called `type`. -/
structure PowerUpCell where
  row : Nat
  col : Nat
  ptype : PowerUpType
deriving DecidableEq, Repr

abbrev Grid := List (List GridCell)

/-- The source reads the column count as `grid[0].length`. -/
def colsOf (g : Grid) : Nat := (g.getD 0 []).length

/-- Read `grid[r][c]`; all source reads are in bounds after validation. -/
def cellAt (g : Grid) (r c : Nat) : GridCell := (g.getD r []).getD c ⟨none, 0⟩

/-- Orthogonal in-bounds neighbors, from `getNeighborsForAI` (identical in both files). -/
def getNeighborsForAI (row col rows cols : Nat) : List (Nat × Nat) :=
  [((row : Int) - 1, (col : Int)), ((row : Int) + 1, (col : Int)),
   ((row : Int), (col : Int) - 1), ((row : Int), (col : Int) + 1)].filterMap fun p =>
    if 0 ≤ p.1 ∧ p.1 < (rows : Int) ∧ 0 ≤ p.2 ∧ p.2 < (cols : Int) then
      some (p.1.toNat, p.2.toNat)
    else none

/-- Modelled from the spec: `calculateCriticalMass` lives in `gameUtils.ts`,
which is not part of the covered sources; the spec describes it as a pure
geometry function where "edge/corner cells have lower thresholds than
interior cells" and gives 4 for the center of a 3×3 grid.  The standard
chain-reaction threshold, the number of orthogonal neighbors (corners 2,
edges 3, interior 4), matches both constraints. -/
def calculateCriticalMass (row col rows cols : Nat) : Nat :=
  (getNeighborsForAI row col rows cols).length

/-- Modelled from the spec: `isAdjacentTo` lives in `gameUtils.ts`, which is
not part of the covered sources; the spec describes it as the 8-neighbor
("orthogonally/diagonally-adjacent") adjacency predicate. -/
def isAdjacentTo (r1 c1 r2 c2 : Nat) : Bool :=
  decide (((r1 : Int) - r2).natAbs ≤ 1) && decide (((c1 : Int) - c2).natAbs ≤ 1) &&
    !(r1 == r2 && c1 == c2)

/-- Manhattan distance, written `Math.abs(a.row-b.row)+Math.abs(a.col-b.col)` in the source. -/
def manhattan (r1 c1 r2 c2 : Nat) : Nat :=
  ((r1 : Int) - r2).natAbs + ((c1 : Int) - c2).natAbs

/-- Does any cell of the grid hold atoms for `p`?  (The `hasPlayerDots`
double loop of `isValidMoveForAI`.) -/
def hasPlayerDots (grid : Grid) (p : PLAYER) : Bool :=
  grid.any fun rowCells => rowCells.any fun cell =>
    cell.player == some p && decide (0 < cell.atoms)

/-- Is `(row,col)` adjacent to an existing dot of `p`?  (The `hasAdjacentDot`
double loop of `isValidMoveForAI`.) -/
def hasAdjacentDot (grid : Grid) (p : PLAYER) (row col : Nat) : Bool :=
  (List.range grid.length).any fun r =>
    (List.range (grid.getD r []).length).any fun c =>
      (cellAt grid r c).player == some p && decide (0 < (cellAt grid r c).atoms) &&
        isAdjacentTo row col r c

/-- The move validator `isValidMoveForAI`, identical in both source files.
Coordinates are `Int` because the source guards against negative indices. -/
def isValidMoveForAI (grid : Grid) (row col : Int) (currentPlayer : PLAYER)
    (isBaseMode : Bool) (hqs : Option (List HQCell)) : Bool :=
  if row < 0 ∨ (grid.length : Int) ≤ row ∨ col < 0 ∨ (colsOf grid : Int) ≤ col then
    false
  else if isBaseMode &&
      (hqs.getD []).any (fun hq => hq.row == row.toNat && hq.col == col.toNat) then
    false
  else if !isBaseMode then
    (cellAt grid row.toNat col.toNat).player == none ||
      (cellAt grid row.toNat col.toNat).player == some currentPlayer
  else if (cellAt grid row.toNat col.toNat).player != none &&
      (cellAt grid row.toNat col.toNat).player != some currentPlayer then
    false
  else
    match (hqs.getD []).find? (fun hq => hq.player == currentPlayer) with
    | some playerHQ =>
      if !hasPlayerDots grid currentPlayer then
        row.toNat == playerHQ.row || col.toNat == playerHQ.col
      else
        (decide ((row - playerHQ.row).natAbs ≤ 1) &&
           decide ((col - playerHQ.col).natAbs ≤ 1)) ||
          hasAdjacentDot grid currentPlayer row.toNat col.toNat
    | none => true

/-- C2: `isValidMoveForAI` returns false out of bounds; in HQ/base mode it
returns false on any cell occupied by a headquarters (own or enemy); and in
classic mode it returns false on a cell owned by a different player. -/
theorem isValidNever_oob_hq_enemy (grid : Grid) (row col : Int) (p : PLAYER)
    (hqs : List HQCell) :
    ((row < 0 ∨ (grid.length : Int) ≤ row ∨ col < 0 ∨ (colsOf grid : Int) ≤ col) →
      ∀ (isBaseMode : Bool) (hqs' : Option (List HQCell)),
        isValidMoveForAI grid row col p isBaseMode hqs' = false) ∧
    ((∃ hq ∈ hqs, (hq.row : Int) = row ∧ (hq.col : Int) = col) →
      isValidMoveForAI grid row col p true (some hqs) = false) ∧
    (∀ q : PLAYER, q ≠ p → (0 ≤ row ∧ 0 ≤ col) →
      (cellAt grid row.toNat col.toNat).player = some q →
      ∀ hqs' : Option (List HQCell),
        isValidMoveForAI grid row col p false hqs' = false) := by
  refine ⟨fun h isBaseMode hqs' => ?_, fun h => ?_, fun q hq _hpos hcell hqs' => ?_⟩
  · unfold isValidMoveForAI
    simp [h]
  · unfold isValidMoveForAI
    split
    · rfl
    · obtain ⟨hqc, hmem, hr, hc⟩ := h
      have hany : (hqs.any fun hq => hq.row == row.toNat && hq.col == col.toNat) = true := by
        refine List.any_eq_true.2 ⟨hqc, hmem, ?_⟩
        have hrn : hqc.row = row.toNat := by omega
        have hcn : hqc.col = col.toNat := by omega
        simp [hrn, hcn]
      simp only [Option.getD_some, hany, Bool.and_true, if_pos rfl]
      simp
  · unfold isValidMoveForAI
    split
    · rfl
    · simp only [Bool.false_and, Bool.not_false, if_true]
      split
      · rfl
      · simp [hcell, hq]

/-- Concrete instantiation of `isValidNever_oob_hq_enemy`: a 2×2 base-mode
grid with an HQ at (0,0) and a blue-owned cell at (1,1). -/
def w2grid : Grid :=
  [[⟨none, 0⟩, ⟨none, 0⟩], [⟨none, 0⟩, ⟨some .blue, 1⟩]]

def w2hqs : List HQCell := [⟨0, 0, .red, 3⟩]

theorem isValidNever_oob_hq_enemy_witness :
    isValidMoveForAI w2grid 5 0 .red true (some w2hqs) = false ∧
    isValidMoveForAI w2grid 0 0 .red true (some w2hqs) = false ∧
    isValidMoveForAI w2grid 1 1 .red false none = false := by
  refine ⟨(isValidNever_oob_hq_enemy w2grid 5 0 .red w2hqs).1 (by decide) true (some w2hqs),
    (isValidNever_oob_hq_enemy w2grid 0 0 .red w2hqs).2.1 ⟨⟨0, 0, .red, 3⟩, by decide, by decide⟩,
    (isValidNever_oob_hq_enemy w2grid 1 1 .red w2hqs).2.2 .blue (by decide) (by decide) (by decide)
      none⟩

/-- C3: in HQ/base mode, when the player's HQ is (first) in the supplied list
and no cell of the grid is owned by the player with a positive unit count,
`isValidMoveForAI` approves only cells on the HQ's row or column. -/
theorem isValid_firstMove_rowcol (grid : Grid) (row col : Int) (p : PLAYER)
    (hqs : List HQCell) (playerHQ : HQCell)
    (hfind : hqs.find? (fun hq => hq.player == p) = some playerHQ)
    (hdots : hasPlayerDots grid p = false)
    (hvalid : isValidMoveForAI grid row col p true (some hqs) = true) :
    row = (playerHQ.row : Int) ∨ col = (playerHQ.col : Int) := by
  by_cases hbounds : row < 0 ∨ (grid.length : Int) ≤ row ∨ col < 0 ∨ (colsOf grid : Int) ≤ col
  · rw [isValidMoveForAI, if_pos hbounds] at hvalid
    exact absurd hvalid (by simp)
  · rw [isValidMoveForAI, if_neg hbounds] at hvalid
    by_cases hhq : (true && (((some hqs).getD []).any
        fun hq => hq.row == row.toNat && hq.col == col.toNat)) = true
    · rw [if_pos hhq] at hvalid
      exact absurd hvalid (by simp)
    · rw [if_neg hhq, if_neg (by simp)] at hvalid
      by_cases hcp : ((cellAt grid row.toNat col.toNat).player != none &&
          (cellAt grid row.toNat col.toNat).player != some p) = true
      · rw [if_pos hcp] at hvalid
        exact absurd hvalid (by simp)
      rw [if_neg hcp, Option.getD_some, hfind, hdots] at hvalid
      simp only [Bool.not_false, if_true, Bool.or_eq_true, beq_iff_eq] at hvalid
      have h0 : 0 ≤ row ∧ 0 ≤ col := by
        push_neg at hbounds
        exact ⟨hbounds.1, hbounds.2.2.1⟩
      rcases hvalid with h | h
      · left
        omega
      · right
        omega

theorem isValid_firstMove_rowcol_witness :
    isValidMoveForAI w2grid 0 1 .red true (some w2hqs) = true ∧
    ((0 : Int) = ((0 : Nat) : Int) ∨ (1 : Int) = ((0 : Nat) : Int)) := by
  refine ⟨by decide, isValid_firstMove_rowcol w2grid 0 1 .red w2hqs ⟨0, 0, .red, 3⟩
    (by decide) (by decide) (by decide)⟩

/-- Value of the cell `(r,c)` in the private simulated copy that
`calculateChainReactionPotential` builds: the deep-copied grid with one unit
placed for `p` at `(row,col)`. -/
def simCellAt (grid : Grid) (row col : Nat) (p : PLAYER) (r c : Nat) : GridCell :=
  if r = row ∧ c = col then ⟨some p, (cellAt grid row col).atoms + 1⟩
  else cellAt grid r c

/-- The two-level chain-reaction estimator `calculateChainReactionPotential`,
identical in both source files (weights 5 and 2). -/
def calculateChainReactionPotential (grid : Grid) (row col : Nat) (p : PLAYER) : Nat :=
  if calculateCriticalMass row col grid.length (colsOf grid) ≤ (cellAt grid row col).atoms + 1 then
    ((getNeighborsForAI row col grid.length (colsOf grid)).map fun n =>
      if calculateCriticalMass n.1 n.2 grid.length (colsOf grid) ≤
          (simCellAt grid row col p n.1 n.2).atoms + 1 then
        5 + ((getNeighborsForAI n.1 n.2 grid.length (colsOf grid)).map fun m =>
          if calculateCriticalMass m.1 m.2 grid.length (colsOf grid) ≤
              (simCellAt grid row col p m.1 m.2).atoms + 1 then 2
          else 0).sum
      else 0).sum
  else 0

/-- Pointwise atom-count monotonicity of the chain-potential estimator:
if the two grids have the same dimensions, the target cell has the same atom
count, and every cell of the second grid holds at least as many atoms as the
first, the estimate cannot decrease. -/
theorem chainPotential_mono_pointwise (grid grid' : Grid) (row col : Nat) (p : PLAYER)
    (hrows : grid'.length = grid.length) (hcols : colsOf grid' = colsOf grid)
    (htarget : (cellAt grid' row col).atoms = (cellAt grid row col).atoms)
    (hmono : ∀ r c, (cellAt grid r c).atoms ≤ (cellAt grid' r c).atoms) :
    calculateChainReactionPotential grid row col p ≤
      calculateChainReactionPotential grid' row col p := by
  have hsim : ∀ r c, (simCellAt grid row col p r c).atoms ≤
      (simCellAt grid' row col p r c).atoms := by
    intro r c
    unfold simCellAt
    split
    · simp [htarget]
    · exact hmono r c
  unfold calculateChainReactionPotential
  rw [hrows, hcols, htarget]
  split
  · refine List.sum_le_sum ?_
    intro n _hn
    by_cases h1 : calculateCriticalMass n.1 n.2 grid.length (colsOf grid) ≤
        (simCellAt grid row col p n.1 n.2).atoms + 1
    · rw [if_pos h1, if_pos (le_trans h1 (by have := hsim n.1 n.2; omega))]
      refine Nat.add_le_add_left (List.sum_le_sum ?_) 5
      intro m _hm
      by_cases h2 : calculateCriticalMass m.1 m.2 grid.length (colsOf grid) ≤
          (simCellAt grid row col p m.1 m.2).atoms + 1
      · rw [if_pos h2, if_pos (le_trans h2 (by have := hsim m.1 m.2; omega))]
      · rw [if_neg h2]
        exact Nat.zero_le _
    · rw [if_neg h1]
      exact Nat.zero_le _
  · exact Nat.zero_le _

/-- C8: increasing the unit count of a single cell other than the target
(while keeping its owner, and staying at or below that cell's critical mass)
never decreases `calculateChainReactionPotential` at the target. -/
theorem chainPotential_mono_neighbor (grid grid' : Grid) (row col nr nc : Nat) (p : PLAYER)
    (hrows : grid'.length = grid.length) (hcols : colsOf grid' = colsOf grid)
    (hne : ¬(nr = row ∧ nc = col))
    (hother : ∀ r c, ¬(r = nr ∧ c = nc) → cellAt grid' r c = cellAt grid r c)
    (hplayer : (cellAt grid' nr nc).player = (cellAt grid nr nc).player)
    (hmore : (cellAt grid nr nc).atoms < (cellAt grid' nr nc).atoms)
    (_hcap : (cellAt grid' nr nc).atoms ≤ calculateCriticalMass nr nc grid.length (colsOf grid)) :
    calculateChainReactionPotential grid row col p ≤
      calculateChainReactionPotential grid' row col p := by
  refine chainPotential_mono_pointwise grid grid' row col p hrows hcols ?_ ?_
  · rw [hother row col (by tauto)]
  · intro r c
    by_cases h : r = nr ∧ c = nc
    · obtain ⟨rfl, rfl⟩ := h
      omega
    · rw [hother r c h]

/-- Concrete instantiation of `chainPotential_mono_neighbor` on a 3×3 grid:
raising the neighbor (0,1) from 1 to 2 atoms raises the estimate at (0,0)
from 0 to 5. -/
def w8grid : Grid :=
  [[⟨some .red, 1⟩, ⟨some .red, 1⟩, ⟨none, 0⟩],
   [⟨none, 0⟩, ⟨none, 0⟩, ⟨none, 0⟩],
   [⟨none, 0⟩, ⟨none, 0⟩, ⟨none, 0⟩]]

def w8grid' : Grid :=
  [[⟨some .red, 1⟩, ⟨some .red, 2⟩, ⟨none, 0⟩],
   [⟨none, 0⟩, ⟨none, 0⟩, ⟨none, 0⟩],
   [⟨none, 0⟩, ⟨none, 0⟩, ⟨none, 0⟩]]

theorem chainPotential_mono_neighbor_witness :
    calculateChainReactionPotential w8grid 0 0 .red ≤
      calculateChainReactionPotential w8grid' 0 0 .red :=
  chainPotential_mono_neighbor w8grid w8grid' 0 0 0 1 .red rfl rfl (by decide)
    (by
      intro r c h
      match r, c with
      | 0, 0 => rfl
      | 0, 1 => exact absurd ⟨rfl, rfl⟩ h
      | 0, Nat.succ (Nat.succ _) => rfl
      | Nat.succ _, _ => rfl)
    (by decide) (by decide) (by decide)

/-!
Reference model for the frame claim.  JavaScript grids are arrays of arrays of
cell *objects*; `grid.map(row => row.map(cell => ({...cell})))` allocates fresh
cell objects and mutation then happens through those fresh references.  We make
the object store explicit: a heap `Nat → GridCell` with a bump allocator, and
grids of references `List (List Nat)` into it.
-/

structure RefState where
  heap : Nat → GridCell
  next : Nat

/-- Allocate a fresh cell object, returning its reference. -/
def allocCell (s : RefState) (v : GridCell) : Nat × RefState :=
  (s.next, ⟨fun i => if i = s.next then v else s.heap i, s.next + 1⟩)

/-- Overwrite the object behind an existing reference (the `cell.atoms++;
cell.player = currentPlayer` mutation). -/
def writeCell (s : RefState) (r : Nat) (v : GridCell) : RefState :=
  ⟨fun i => if i = r then v else s.heap i, s.next⟩

abbrev GridR := List (List Nat)

/-- One step of the row copy `row.map(cell => ({...cell}))`. -/
def copyRowF (acc : List Nat × RefState) (ref : Nat) : List Nat × RefState :=
  let (r', s') := allocCell acc.2 (acc.2.heap ref)
  (acc.1 ++ [r'], s')

/-- The row copy `row.map(cell => ({...cell}))`: fresh objects with the same field values. -/
def copyRow (s : RefState) (row : List Nat) : List Nat × RefState :=
  row.foldl copyRowF ([], s)

/-- One step of the grid copy. -/
def copyGridF (acc : GridR × RefState) (row : List Nat) : GridR × RefState :=
  let (row', s') := copyRow acc.2 row
  (acc.1 ++ [row'], s')

/-- The grid deep copy `grid.map(row => row.map(cell => ({...cell})))`. -/
def copyGridRefs (s : RefState) (g : GridR) : GridR × RefState :=
  g.foldl copyGridF ([], s)

def cellRefAt (g : GridR) (r c : Nat) : Nat := (g.getD r []).getD c 0

/-- Heap-level version of `calculateChainReactionPotential`: deep-copies the
grid, mutates the copied target cell in place, and reads the estimate through
the copy. -/
def calcChainPotentialHeap (s : RefState) (g : GridR) (row col : Nat) (p : PLAYER) :
    Nat × RefState :=
  let rows := g.length
  let cols := (g.getD 0 []).length
  let (sg, s1) := copyGridRefs s g
  let tref := cellRefAt sg row col
  let s2 := writeCell s1 tref ⟨some p, (s1.heap tref).atoms + 1⟩
  let potential :=
    if calculateCriticalMass row col rows cols ≤ (s2.heap tref).atoms then
      ((getNeighborsForAI row col rows cols).map fun n =>
        if calculateCriticalMass n.1 n.2 rows cols ≤
            (s2.heap (cellRefAt sg n.1 n.2)).atoms + 1 then
          5 + ((getNeighborsForAI n.1 n.2 rows cols).map fun m =>
            if calculateCriticalMass m.1 m.2 rows cols ≤
                (s2.heap (cellRefAt sg m.1 m.2)).atoms + 1 then 2
            else 0).sum
        else 0).sum
    else 0
  (potential, s2)

/-- Heap-level version of the minimax helper `simulateMove`: deep-copies the
grid and replaces the target slot of the fresh copy with a newly allocated
cell object holding one more atom for `player`. -/
def simulateMoveHeap (s : RefState) (g : GridR) (row col : Nat) (p : PLAYER) :
    GridR × RefState :=
  let (ng, s1) := copyGridRefs s g
  let (nref, s2) := allocCell s1 ⟨some p, (s1.heap (cellRefAt ng row col)).atoms + 1⟩
  (ng.set row ((ng.getD row []).set col nref), s2)

theorem copyRowF_foldl_spec (row : List Nat) : ∀ (acc : List Nat) (s : RefState),
    s.next ≤ (row.foldl copyRowF (acc, s)).2.next ∧
      (∀ i < s.next, (row.foldl copyRowF (acc, s)).2.heap i = s.heap i) ∧
      (∀ r ∈ (row.foldl copyRowF (acc, s)).1, r ∈ acc ∨ s.next ≤ r) ∧
      (row.foldl copyRowF (acc, s)).1.length = acc.length + row.length := by
  induction row with
  | nil => exact fun acc s => ⟨le_refl _, fun i _ => rfl, fun r hr => Or.inl hr, by simp⟩
  | cons a t ih =>
    intro acc s
    have hstep : (a :: t).foldl copyRowF (acc, s) =
        t.foldl copyRowF (acc ++ [s.next],
          ⟨fun i => if i = s.next then s.heap a else s.heap i, s.next + 1⟩) := rfl
    rw [hstep]
    obtain ⟨h1, h2, h3, h4⟩ := ih (acc ++ [s.next])
      ⟨fun i => if i = s.next then s.heap a else s.heap i, s.next + 1⟩
    have hnx : (⟨fun i => if i = s.next then s.heap a else s.heap i, s.next + 1⟩ :
        RefState).next = s.next + 1 := rfl
    rw [hnx] at h1
    refine ⟨by omega, fun i hi => ?_, fun r hr => ?_, ?_⟩
    · rw [h2 i (by rw [hnx]; omega)]
      show (if i = s.next then s.heap a else s.heap i) = s.heap i
      rw [if_neg (by omega)]
    · rcases h3 r hr with hmem | hge
      · rcases List.mem_append.1 hmem with h | h
        · exact Or.inl h
        · simp only [List.mem_singleton] at h
          omega
      · rw [hnx] at hge
        omega
    · rw [h4]
      simp only [List.length_append, List.length_cons, List.length_nil]
      omega

/-- Convenient form of the row-copy lemma for a fresh accumulator. -/
theorem copyRow_spec (s : RefState) (row : List Nat) :
    s.next ≤ (copyRow s row).2.next ∧
      (∀ i < s.next, (copyRow s row).2.heap i = s.heap i) ∧
      (∀ r ∈ (copyRow s row).1, s.next ≤ r) ∧
      (copyRow s row).1.length = row.length := by
  obtain ⟨h1, h2, h3, h4⟩ := copyRowF_foldl_spec row [] s
  rw [copyRow]
  exact ⟨h1, h2, fun r hr => (h3 r hr).resolve_left (List.not_mem_nil r), by simpa using h4⟩

theorem copyGridF_foldl_spec (g : GridR) : ∀ (acc : GridR) (s : RefState),
    ∃ rest s',
      g.foldl copyGridF (acc, s) = (acc ++ rest, s') ∧
      s.next ≤ s'.next ∧
      (∀ i < s.next, s'.heap i = s.heap i) ∧
      rest.length = g.length ∧
      (∀ j, (rest.getD j []).length = (g.getD j []).length) ∧
      (∀ rrow ∈ rest, ∀ r ∈ rrow, s.next ≤ r) := by
  induction g with
  | nil =>
    exact fun acc s => ⟨[], s, by simp, le_refl _, fun i _ => rfl, rfl,
      fun j => rfl, by simp⟩
  | cons a t ih =>
    intro acc s
    have hstep : (a :: t).foldl copyGridF (acc, s) =
        t.foldl copyGridF (acc ++ [(copyRow s a).1], (copyRow s a).2) := rfl
    obtain ⟨hr1, hr2, hr3, hr4⟩ := copyRow_spec s a
    obtain ⟨rest, s', hfold, h1, h2, h3, h4, h5⟩ := ih (acc ++ [(copyRow s a).1]) (copyRow s a).2
    refine ⟨(copyRow s a).1 :: rest, s', ?_, by omega, fun i hi => ?_, by simp [h3],
      fun j => ?_, fun rrow hrow r hr => ?_⟩
    · rw [hstep, hfold]
      simp
    · rw [h2 i (by omega), hr2 i hi]
    · match j with
      | 0 => simpa using hr4
      | Nat.succ k => exact h4 k
    · rcases List.mem_cons.1 hrow with rfl | hmem
      · exact hr3 r hr
      · exact le_trans hr1 (h5 rrow hmem r hr)

/-- Every reference of the freshly copied grid points at or above the
allocation frontier of the original state. -/
theorem copyGridRefs_spec (s : RefState) (g : GridR) :
    ∃ s', copyGridRefs s g = ((copyGridRefs s g).1, s') ∧
      s.next ≤ s'.next ∧
      (∀ i < s.next, s'.heap i = s.heap i) ∧
      (copyGridRefs s g).1.length = g.length ∧
      (∀ j, ((copyGridRefs s g).1.getD j []).length = (g.getD j []).length) ∧
      (∀ rrow ∈ (copyGridRefs s g).1, ∀ r ∈ rrow, s.next ≤ r) := by
  obtain ⟨rest, s', hfold, h1, h2, h3, h4, h5⟩ := copyGridF_foldl_spec g [] s
  rw [copyGridRefs, hfold]
  simp only [List.nil_append]
  exact ⟨s', rfl, h1, h2, h3, h4, h5⟩

theorem getD_mem_of_lt {α : Type} (l : List α) (n : Nat) (d : α) (h : n < l.length) :
    l.getD n d ∈ l := by
  rw [List.getD_eq_getElem?_getD, List.getElem?_eq_getElem h]
  exact List.getElem_mem h

/-- C4: both look-ahead simulators operate on freshly allocated copies: every
object allocated before the call — in particular every cell of the caller's
grid — is untouched in the heap after the call. -/
theorem simulators_never_mutate_caller (s : RefState) (g : GridR) (row col : Nat) (p : PLAYER)
    (hrow : row < g.length) (hcol : col < (g.getD row []).length) :
    (∀ i < s.next, ((calcChainPotentialHeap s g row col p).2).heap i = s.heap i) ∧
    (∀ i < s.next, ((simulateMoveHeap s g row col p).2).heap i = s.heap i) := by
  obtain ⟨s', heq, h1, h2, h3, h4, h5⟩ := copyGridRefs_spec s g
  have hsg2 : (copyGridRefs s g).2 = s' := congrArg Prod.snd heq
  have htref : s.next ≤ cellRefAt (copyGridRefs s g).1 row col := by
    have hrow' : row < (copyGridRefs s g).1.length := by omega
    have hmemrow : (copyGridRefs s g).1.getD row [] ∈ (copyGridRefs s g).1 :=
      getD_mem_of_lt _ row [] hrow'
    have hcol' : col < ((copyGridRefs s g).1.getD row []).length := by
      rw [h4 row]; exact hcol
    have hmemref : ((copyGridRefs s g).1.getD row []).getD col 0 ∈
        (copyGridRefs s g).1.getD row [] := getD_mem_of_lt _ col 0 hcol'
    exact h5 _ hmemrow _ hmemref
  constructor
  · intro i hi
    have hne : i ≠ cellRefAt (copyGridRefs s g).1 row col := by omega
    have hstep : (calcChainPotentialHeap s g row col p).2.heap i =
        if i = cellRefAt (copyGridRefs s g).1 row col then
          ⟨some p, ((copyGridRefs s g).2.heap (cellRefAt (copyGridRefs s g).1 row col)).atoms + 1⟩
        else (copyGridRefs s g).2.heap i := rfl
    rw [hstep, if_neg hne, hsg2, h2 i hi]
  · intro i hi
    have hne : i ≠ (copyGridRefs s g).2.next := by
      rw [hsg2]
      omega
    have hstep : (simulateMoveHeap s g row col p).2.heap i =
        if i = (copyGridRefs s g).2.next then
          ⟨some p, ((copyGridRefs s g).2.heap (cellRefAt (copyGridRefs s g).1 row col)).atoms + 1⟩
        else (copyGridRefs s g).2.heap i := rfl
    rw [hstep, if_neg hne, hsg2, h2 i hi]

/-- Concrete instantiation of `simulators_never_mutate_caller`: a one-cell
grid whose unique pre-existing heap object keeps its value through both
simulators. -/
def w4state : RefState := ⟨fun _ => ⟨some .red, 1⟩, 1⟩

theorem simulators_never_mutate_caller_witness :
    ((calcChainPotentialHeap w4state [[0]] 0 0 .blue).2).heap 0 = ⟨some .red, 1⟩ ∧
    ((simulateMoveHeap w4state [[0]] 0 0 .blue).2).heap 0 = ⟨some .red, 1⟩ := by
  obtain ⟨hA, hB⟩ := simulators_never_mutate_caller w4state [[0]] 0 0 .blue
    (by decide) (by decide)
  exact ⟨hA 0 (by decide), hB 0 (by decide)⟩

/-! Randomness and the shared pieces of the positional evaluator. -/

/-- Explicit model of `Math.random()`: a stream of draws and a cursor. -/
structure Rng where
  stream : Nat → ℚ
  idx : Nat

/-- Consume one draw. -/
def Rng.next (g : Rng) : ℚ × Rng := (g.stream g.idx, ⟨g.stream, g.idx + 1⟩)

/-- The inclusive range `for (let i = a; i <= b; i++)` (with `a` already clamped at 0). -/
def rangeIncl (a b : Nat) : List Nat := List.range' a (b + 1 - a)

/-- The six-field `StrategicEvaluation` record of both source files. -/
structure StrategicEvaluation where
  aggressiveScore : ℚ
  defensiveScore : ℚ
  powerUpScore : ℚ
  chainReactionScore : ℚ
  territoryScore : ℚ
  baseThreatScore : ℚ
deriving DecidableEq, Repr

/-- The read-only `GameState` view passed to evaluation. -/
structure GameState where
  grid : Grid
  currentPlayer : PLAYER
  isBaseMode : Bool
  hqs : Option (List HQCell)
  powerUps : Option (List PowerUpCell)

structure AIMove where
  row : Nat
  col : Nat
  score : ℚ
deriving DecidableEq, Repr

/-- Row-major enumeration of all board coordinates (`for row ... for col ...`). -/
def movePairs (grid : Grid) : List (Nat × Nat) :=
  (List.range grid.length).flatMap fun r => (List.range (colsOf grid)).map fun c => (r, c)

/-- `getValidMoves` of aiPlayer.ts; `part_000` inlines the same enumeration. -/
def getValidMoves (grid : Grid) (p : PLAYER) (isBaseMode : Bool)
    (hqs : Option (List HQCell)) : List AIMove :=
  (movePairs grid).filterMap fun rc =>
    if isValidMoveForAI grid rc.1 rc.2 p isBaseMode hqs then some ⟨rc.1, rc.2, 0⟩ else none

/-- The descending-score comparator `(a, b) => b.score - a.score` (stable sort). -/
def byScoreDesc (a b : AIMove) : Bool := decide (b.score ≤ a.score)

/-- One step of the classic-mode enemy-neighbor penalty loop: a `10 +
random() * 10` penalty per enemy-owned orthogonal neighbor. -/
def penaltyStep (grid : Grid) (currentPlayer : PLAYER) (acc : ℚ × Rng) (n : Nat × Nat) :
    ℚ × Rng :=
  match (cellAt grid n.1 n.2).player with
  | some q =>
    if q ≠ currentPlayer then
      let (r, rng') := acc.2.next
      (acc.1 + (10 + r * 10), rng')
    else acc
  | none => acc

/-- Section 2 of `evaluateStrategicMove` (identical in both files): the
mode-dependent territory bonus plus, in classic mode, the enemy-neighbor
penalty (later subtracted from the aggressive score) and the isolation bonus.
Returns `(territoryScore, enemyNeighborPenalty, rng)`. -/
def territorySection (grid : Grid) (row col : Nat) (currentPlayer : PLAYER)
    (isBaseMode : Bool) (rng : Rng) : ℚ × ℚ × Rng :=
  let rows := grid.length
  let cols := colsOf grid
  let isCorner := (row == 0 || row == rows - 1) && (col == 0 || col == cols - 1)
  let isEdge := row == 0 || row == rows - 1 || col == 0 || col == cols - 1
  if !isBaseMode then
    let (c1, rng) := rng.next
    let (c2, rng) := rng.next
    let (c3, rng) := rng.next
    let cornerBonus := 20 + c1 * 20
    let edgeBonus := 8 + c2 * 10
    let centerBonus := 2 + c3 * 8
    let terr := if isCorner then cornerBonus else if isEdge then edgeBonus else centerBonus
    let (penalty, rng) := (getNeighborsForAI row col rows cols).foldl
      (penaltyStep grid currentPlayer) (0, rng)
    let hasOwnNeighbor := (getNeighborsForAI row col rows cols).any fun n =>
      (cellAt grid n.1 n.2).player == some currentPlayer
    if hasOwnNeighbor then
      (terr, penalty, rng)
    else
      let (ri, rng) := rng.next
      (terr + (8 + ri * 12), penalty, rng)
  else
    let (b1, rng) := rng.next
    let (b2, rng) := rng.next
    let (b3, rng) := rng.next
    let cornerBonus := 1 + b1 * 6
    let edgeBonus := 3 + b2 * 6
    let centerBonus := 1 + b3 * 6
    ((if isCorner then cornerBonus else if isEdge then edgeBonus else centerBonus), 0, rng)

/-- The base-mode 5×5 enemy-proximity sum of the aggressive section
(identical in both files). -/
def enemyProximityScore (grid : Grid) (row col : Nat) (currentPlayer : PLAYER)
    (isBaseMode : Bool) : ℚ :=
  if isBaseMode then
    ((rangeIncl (row - 2) (min (grid.length - 1) (row + 2))).map fun r =>
      ((rangeIncl (col - 2) (min (colsOf grid - 1) (col + 2))).map fun c =>
        match (cellAt grid r c).player with
        | some q =>
          if q ≠ currentPlayer then
            (3 - (manhattan r c row col : ℚ)) * ((cellAt grid r c).atoms : ℚ) * 2
          else 0
        | none => 0).sum).sum
  else 0

/-- Section 5 of `evaluateStrategicMove` (identical in both files): the
defensive score around the player's own HQ. -/
def defensiveScoreFor (grid : Grid) (row col : Nat) (currentPlayer : PLAYER)
    (isBaseMode : Bool) (hqs : Option (List HQCell)) : ℚ :=
  if isBaseMode then
    match hqs with
    | some l =>
      match l.find? (fun hq => hq.player == currentPlayer) with
      | some ourHQ =>
        let rows := grid.length
        let cols := colsOf grid
        let distanceToOurHQ := manhattan ourHQ.row ourHQ.col row col
        let threatPairs := (rangeIncl (ourHQ.row - 3) (min (rows - 1) (ourHQ.row + 3))).flatMap
          fun r => (rangeIncl (ourHQ.col - 3) (min (cols - 1) (ourHQ.col + 3))).map fun c => (r, c)
        let enemyThreatNearBase := (threatPairs.map fun rc =>
          match (cellAt grid rc.1 rc.2).player with
          | some q =>
            if q ≠ currentPlayer then
              ((cellAt grid rc.1 rc.2).atoms : ℚ) *
                (max 1 (4 - (manhattan rc.1 rc.2 ourHQ.row ourHQ.col : ℚ))) * 8
            else 0
          | none => 0).sum
        let criticalThreats := (threatPairs.map fun rc =>
          match (cellAt grid rc.1 rc.2).player with
          | some q =>
            if q ≠ currentPlayer ∧ manhattan rc.1 rc.2 ourHQ.row ourHQ.col ≤ 2 ∧
                2 ≤ (cellAt grid rc.1 rc.2).atoms then
              ((cellAt grid rc.1 rc.2).atoms : ℚ) * 15
            else 0
          | none => 0).sum
        let base1 : ℚ :=
          if (0:ℚ) < enemyThreatNearBase then
            enemyThreatNearBase * (5 - min (distanceToOurHQ : ℚ) 4) * 2
              + (if (0:ℚ) < criticalThreats ∧ distanceToOurHQ ≤ 3 then criticalThreats * 3 else 0)
              + (match (cellAt grid row col).player with
                 | some q => if q ≠ currentPlayer then (40 : ℚ) else 0
                 | none => 0)
              + (if distanceToOurHQ ≤ 2 then (30 : ℚ) else 0)
          else 0
        if ourHQ.health ≤ 2 then base1 * 2 else base1
      | none => 0
    | none => 0
  else 0

namespace Part000

/-- The `AIPersonality` of `part_000` (riskTaking-based tuning). -/
structure AIPersonality where
  aggressiveness : ℚ
  defensiveness : ℚ
  riskTaking : ℚ
  powerUpHunting : ℚ
  territorialness : ℚ
  cornerPreference : ℚ
  spreadTendency : ℚ
deriving DecidableEq, Repr

/-- `generateAIPersonality` of `part_000`: seven uniform draws into fixed ranges. -/
def generateAIPersonality (rng : Rng) : AIPersonality × Rng :=
  let (r1, rng) := rng.next
  let (r2, rng) := rng.next
  let (r3, rng) := rng.next
  let (r4, rng) := rng.next
  let (r5, rng) := rng.next
  let (r6, rng) := rng.next
  let (r7, rng) := rng.next
  (⟨1/5 + r1 * (23/10), 1/5 + r2 * (23/10), 1/5 + r3 * (23/10), 4/5 + r4 * (11/5),
    1/5 + r5 * (23/10), 1/10 + r6 * (19/10), 1/5 + r7 * (23/10)⟩, rng)

/-- The `personalities` map of the `PersonalityBasedAI` class. -/
abbrev PersonalityTable := PLAYER → Option AIPersonality

def emptyTable : PersonalityTable := fun _ => none

/-- `getPersonality`: return the cached vector or lazily create and cache one. -/
def getPersonality (s : PersonalityTable) (p : PLAYER) (rng : Rng) :
    AIPersonality × PersonalityTable × Rng :=
  match s p with
  | some pers => (pers, s, rng)
  | none =>
    let (pers, rng') := generateAIPersonality rng
    (pers, fun q => if q = p then some pers else s q, rng')

/-- `resetPersonalities`: clear the whole table. -/
def resetPersonalities (_s : PersonalityTable) : PersonalityTable := fun _ => none

/-- The immediate-capture part of the aggressive section of `part_000`:
`15 * neighbor.atoms` per enemy orthogonal neighbor, only when the placement
reaches critical mass. -/
def explosionCaptureSum (grid : Grid) (row col : Nat) (currentPlayer : PLAYER) : ℚ :=
  if calculateCriticalMass row col grid.length (colsOf grid) ≤
      (cellAt grid row col).atoms + 1 then
    ((getNeighborsForAI row col grid.length (colsOf grid)).map fun n =>
      match (cellAt grid n.1 n.2).player with
      | some q =>
        if q ≠ currentPlayer then 15 * ((cellAt grid n.1 n.2).atoms : ℚ) else 0
      | none => 0).sum
  else 0

/-- `evaluateStrategicMove` of `part_000`, assembled from the shared sections
plus its own power-up, aggressive and base-threat sections. -/
def evaluateStrategicMove (grid : Grid) (row col : Nat) (currentPlayer : PLAYER)
    (gs : GameState) (rng : Rng) : StrategicEvaluation × Rng :=
  let rows := grid.length
  let cols := colsOf grid
  let cell := cellAt grid row col
  let criticalMass := calculateCriticalMass row col rows cols
  let powerUpScore : ℚ :=
    if gs.isBaseMode then
      match gs.powerUps with
      | some pus =>
        (match pus.find? (fun pu => pu.row == row && pu.col == col) with
         | some pu => if pu.ptype = .diamond then (150 : ℚ) else 150
         | none => 0)
        + (pus.map fun pu =>
            let d := manhattan pu.row pu.col row col
            if d ≤ 3 then (4 - (d : ℚ)) * 25 else 0).sum
      | none => 0
    else 0
  let (territoryScore, enemyNeighborPenalty, rng) :=
    territorySection grid row col currentPlayer gs.isBaseMode rng
  let aggressiveScore :=
    -enemyNeighborPenalty + explosionCaptureSum grid row col currentPlayer +
      enemyProximityScore grid row col currentPlayer gs.isBaseMode
  let baseThreatScore : ℚ :=
    if gs.isBaseMode then
      match gs.hqs with
      | some l =>
        (l.map fun hq =>
          if hq.player ≠ currentPlayer then
            let d := manhattan hq.row hq.col row col
            if d ≤ 3 then
              (4 - (d : ℚ)) * 20 +
                (if criticalMass ≤ cell.atoms + 1 ∧ d ≤ 2 then (40 : ℚ) else 0)
            else 0
          else 0).sum
      | none => 0
    else 0
  let defensiveScore := defensiveScoreFor grid row col currentPlayer gs.isBaseMode gs.hqs
  let chainReactionScore : ℚ :=
    (calculateChainReactionPotential grid row col currentPlayer : ℚ) * 10
  (⟨aggressiveScore, defensiveScore, powerUpScore, chainReactionScore,
    territoryScore, baseThreatScore⟩, rng)

/-- `evaluateMove` of `part_000`: personality-weighted sum plus two
randomness terms. -/
def evaluateMove (grid : Grid) (row col : Nat) (currentPlayer : PLAYER)
    (gs : GameState) (s : PersonalityTable) (rng : Rng) :
    ℚ × PersonalityTable × Rng :=
  let (evaln, rng) := evaluateStrategicMove grid row col currentPlayer gs rng
  let (pers, s, rng) := getPersonality s currentPlayer rng
  let base : ℚ :=
    evaln.powerUpScore * pers.powerUpHunting * (9/5)
    + evaln.territoryScore * pers.territorialness * pers.cornerPreference * (4/5)
    + evaln.defensiveScore * pers.defensiveness * 2
    + evaln.aggressiveScore * pers.aggressiveness * (3/2)
    + evaln.baseThreatScore * pers.aggressiveness * pers.riskTaking * (6/5)
    + evaln.chainReactionScore * pers.riskTaking * (13/10)
  let (r1, rng) := rng.next
  let base := base + ((r1 - 1/2) * 2 * (pers.riskTaking * (3/10))) * max 15 (|base| * (1/5))
  let (r2, rng) := rng.next
  let base := base + (r2 - 1/2) * 25 * pers.riskTaking
  (base, s, rng)

/-- Score the enumerated legal moves in order (the scoring loop of `getBestMove`). -/
def scoreMoves (grid : Grid) (p : PLAYER) (gs : GameState) :
    List AIMove → PersonalityTable → Rng → List AIMove × PersonalityTable × Rng
  | [], s, rng => ([], s, rng)
  | m :: rest, s, rng =>
    let (sc, s', rng') := evaluateMove grid m.row m.col p gs s rng
    let (tail, s'', rng'') := scoreMoves grid p gs rest s' rng'
    (⟨m.row, m.col, sc⟩ :: tail, s'', rng'')

/-- The top-k window of the final selection step of `part_000`:
`Math.max(1, Math.ceil(n * (0.1 + riskTaking * 0.4)))`. -/
def topMovesCount (risk : ℚ) (n : Nat) : Nat :=
  max 1 (⌈(n : ℚ) * (1/10 + risk * (2/5))⌉.toNat)

/-- `getBestMove` of `part_000`: enumerate, score, sort descending and pick a
uniform index below `min(topMovesCount, n)`. -/
def getBestMove (grid : Grid) (p : PLAYER) (isBaseMode : Bool)
    (hqs : Option (List HQCell)) (powerUps : Option (List PowerUpCell))
    (s : PersonalityTable) (rng : Rng) : Option AIMove × PersonalityTable × Rng :=
  let (pers, s, rng) := getPersonality s p rng
  let gs : GameState := ⟨grid, p, isBaseMode, hqs, powerUps⟩
  let vm := getValidMoves grid p isBaseMode hqs
  let (scored, s, rng) := scoreMoves grid p gs vm s rng
  if scored.isEmpty then (none, s, rng)
  else
    let sorted := scored.mergeSort byScoreDesc
    let topMoves := topMovesCount pers.riskTaking scored.length
    let (rsel, rng) := rng.next
    let bestIdx := (⌊rsel * (min topMoves sorted.length : ℚ)⌋).toNat
    (some (sorted.getD bestIdx ⟨0, 0, 0⟩), s, rng)

/-- `getAIMove` of `part_000`: the top-level entry point delegates to
`getBestMove` (the `try`/`catch` cannot fire in the pure model). -/
def getAIMove (grid : Grid) (p : PLAYER) (isBaseMode : Bool)
    (hqs : Option (List HQCell)) (powerUps : Option (List PowerUpCell))
    (s : PersonalityTable) (rng : Rng) : Option AIMove × PersonalityTable × Rng :=
  getBestMove grid p isBaseMode hqs powerUps s rng

end Part000

/-!
Claim C1 fixtures: a 2×2 base-mode board for red (HQ at (0,0)) whose legal
moves are (0,1) and (1,0), a single power-up on the legal cell (0,1), and a
random stream (all draws in `[0,1)`) with riskTaking draw 9/10 and final
selection draw 6/10.
-/

def c1grid : Grid :=
  [[⟨none, 0⟩, ⟨none, 0⟩], [⟨none, 0⟩, ⟨some .blue, 1⟩]]

def c1hqs : List HQCell := [⟨0, 0, .red, 3⟩]

def c1pus : List PowerUpCell := [⟨0, 1, .diamond⟩]

def c1stream : Nat → ℚ := fun i => if i = 2 then 9/10 else if i = 17 then 6/10 else 0

/-- C1 counterexample: in the `part_000` tuning (which has no power-up
override) `getBestMove` can return a move that is not the unique
power-up-coincident legal move — here it returns (1,0) although (0,1) is the
only legal move on a power-up, because the riskTaking-widened top-k window
lets the final draw pick the second-ranked candidate. -/
theorem part000_ignores_powerup_cex :
    ((Part000.getBestMove c1grid .red true (some c1hqs) (some c1pus)
        Part000.emptyTable ⟨c1stream, 0⟩).1.map fun m => (m.row, m.col)) = some (1, 0) ∧
    (getValidMoves c1grid .red true (some c1hqs)).map (fun m => (m.row, m.col)) =
      [(0, 1), (1, 0)] ∧
    ((getValidMoves c1grid .red true (some c1hqs)).filter fun m =>
      c1pus.any fun pu => pu.row == m.row && pu.col == m.col).map (fun m => (m.row, m.col)) =
        [(0, 1)] := by
  with_unfolding_all decide

/-!
Claim C5 fixtures: a 3×3 base-mode board where placing at (0,0) does not
reach the corner's critical mass, yet the enemy dot at (0,1) feeds the
proximity term of the aggressive score.
-/

def c5grid : Grid :=
  [[⟨none, 0⟩, ⟨some .blue, 1⟩, ⟨none, 0⟩],
   [⟨none, 0⟩, ⟨none, 0⟩, ⟨none, 0⟩],
   [⟨none, 0⟩, ⟨none, 0⟩, ⟨none, 0⟩]]

def c5gs : GameState := ⟨c5grid, .red, true, some [⟨2, 2, .red, 3⟩], none⟩

/-- C5 counterexample: a non-exploding placement with a nonzero (here 4)
aggressive score, through the base-mode enemy-proximity term. -/
theorem aggressive_nonzero_without_explosion_cex :
    (cellAt c5grid 0 0).atoms + 1 < calculateCriticalMass 0 0 3 3 ∧
    ((Part000.evaluateStrategicMove c5grid 0 0 .red c5gs ⟨fun _ => 0, 0⟩).1).aggressiveScore =
      4 ∧
    ((Part000.evaluateStrategicMove c5grid 0 0 .red c5gs ⟨fun _ => 0, 0⟩).1).aggressiveScore ≠
      0 := by
  with_unfolding_all decide

/-- A fold whose step fixes every accumulator returns its start value. -/
theorem foldlFixed {α β : Type} (l : List α) (f : β → α → β) (b : β)
    (h : ∀ x ∈ l, ∀ acc, f acc x = acc) : l.foldl f b = b := by
  induction l generalizing b with
  | nil => rfl
  | cons a t ih =>
    rw [List.foldl_cons, h a (List.mem_cons_self a t) b]
    exact ih b fun x hx acc => h x (List.mem_cons_of_mem a hx) acc

theorem mem_rangeIncl {a b m : Nat} (h : m ∈ rangeIncl a b) : a ≤ m ∧ m ≤ b := by
  rw [rangeIncl] at h
  obtain ⟨i, hi, rfl⟩ := List.mem_range'.1 h
  omega

/-- Neighbors from `getNeighborsForAI` are in bounds and at distance one. -/
theorem mem_getNeighborsForAI {row col rows cols : Nat} {n : Nat × Nat}
    (h : n ∈ getNeighborsForAI row col rows cols) :
    n.1 < rows ∧ n.2 < cols ∧
      ((n.1 : Int) - row).natAbs + ((n.2 : Int) - col).natAbs = 1 := by
  simp only [getNeighborsForAI, List.mem_filterMap] at h
  obtain ⟨a, ha, he⟩ := h
  split at he
  · rename_i hcond
    obtain ⟨h1, h2, h3, h4⟩ := hcond
    obtain rfl : (a.1.toNat, a.2.toNat) = n := Option.some_injective _ he
    simp only [List.mem_cons, List.not_mem_nil, or_false] at ha
    rcases ha with h | h | h | h <;> subst h <;> dsimp only at h1 h2 h3 h4 ⊢ <;>
      exact ⟨by omega, by omega, by omega⟩
  · exact absurd he (by simp)

/-- Out-of-structure reads return the default empty cell. -/
theorem cellAt_default (grid : Grid) (r c : Nat)
    (h : grid.length ≤ r ∨ (grid.getD r []).length ≤ c) :
    cellAt grid r c = ⟨none, 0⟩ := by
  rcases h with h | h
  · rw [cellAt, List.getD_eq_getElem?_getD grid, List.getElem?_eq_none h]
    rfl
  · rw [cellAt, List.getD_eq_getElem?_getD (grid.getD r []), List.getElem?_eq_none h]
    rfl

/-- If no cell within Chebyshev distance 2 of the target is enemy-owned, the
base-mode proximity sum vanishes. -/
theorem enemyProximityScore_zero (grid : Grid) (row col : Nat) (p : PLAYER)
    (isBaseMode : Bool)
    (hwin : ∀ r, r < grid.length → ∀ c, c < (grid.getD r []).length →
      ((r : Int) - row).natAbs ≤ 2 → ((c : Int) - col).natAbs ≤ 2 →
      ∀ q, (cellAt grid r c).player = some q → q = p) :
    enemyProximityScore grid row col p isBaseMode = 0 := by
  cases isBaseMode with
  | false => rfl
  | true =>
    rw [enemyProximityScore, if_pos rfl]
    refine List.sum_eq_zero fun x hx => ?_
    obtain ⟨r, hr, rfl⟩ := List.mem_map.1 hx
    refine List.sum_eq_zero fun y hy => ?_
    obtain ⟨c, hc, rfl⟩ := List.mem_map.1 hy
    obtain ⟨hr1, hr2⟩ := mem_rangeIncl hr
    obtain ⟨hc1, hc2⟩ := mem_rangeIncl hc
    cases hp : (cellAt grid r c).player with
    | none => rfl
    | some q =>
      by_cases hb : r < grid.length ∧ c < (grid.getD r []).length
      · have hq : q = p := hwin r hb.1 c hb.2 (by omega) (by omega) q hp
        simp [hq]
      · rw [cellAt_default grid r c (by omega)] at hp
        exact absurd hp (by simp)

/-- If no cell within Chebyshev distance 2 of the target is enemy-owned, the
classic-mode enemy-neighbor penalty accumulated by `territorySection`
vanishes (in base mode it is zero by construction). -/
theorem territoryPenalty_zero (grid : Grid) (row col : Nat) (p : PLAYER)
    (isBaseMode : Bool) (rng : Rng)
    (hwin : ∀ r, r < grid.length → ∀ c, c < (grid.getD r []).length →
      ((r : Int) - row).natAbs ≤ 2 → ((c : Int) - col).natAbs ≤ 2 →
      ∀ q, (cellAt grid r c).player = some q → q = p) :
    (territorySection grid row col p isBaseMode rng).2.1 = 0 := by
  have hfold : ∀ rngX : Rng, ((getNeighborsForAI row col grid.length (colsOf grid)).foldl
      (penaltyStep grid p) (0, rngX)) = (0, rngX) := by
    intro rngX
    refine foldlFixed _ _ _ fun n hn acc => ?_
    obtain ⟨hn1, hn2, hn3⟩ := mem_getNeighborsForAI hn
    rw [penaltyStep]
    cases hp : (cellAt grid n.1 n.2).player with
    | none => rfl
    | some q =>
      by_cases hb : n.2 < (grid.getD n.1 []).length
      · have hq : q = p := hwin n.1 hn1 n.2 hb (by omega) (by omega) q hp
        simp [hq]
      · rw [cellAt_default grid n.1 n.2 (by omega)] at hp
        exact absurd hp (by simp)
  cases isBaseMode with
  | true => rfl
  | false =>
    simp only [territorySection, Bool.not_false, if_true]
    split
    · rw [hfold]
    · rw [hfold]

/-- Definitional shape of the `part_000` aggressive score: enemy-neighbor
penalty (classic), immediate-capture sum, and base-mode proximity sum. -/
theorem part000_aggressiveScore_eq (grid : Grid) (row col : Nat) (p : PLAYER)
    (gs : GameState) (rng : Rng) :
    (Part000.evaluateStrategicMove grid row col p gs rng).1.aggressiveScore =
      -(territorySection grid row col p gs.isBaseMode rng).2.1 +
        Part000.explosionCaptureSum grid row col p +
        enemyProximityScore grid row col p gs.isBaseMode := rfl

/-- C5 (amended): the aggressive sub-score of the `part_000` evaluator is zero
whenever the placement would not reach critical mass AND no enemy-owned cell
lies within Chebyshev distance 2 of the target (the counterexample
`aggressive_nonzero_without_explosion_cex` shows the second condition is
needed: proximity, and in classic mode the neighbor penalty, contribute
without any explosion). -/
theorem aggressive_zero_without_explosion (grid : Grid) (row col : Nat) (p : PLAYER)
    (gs : GameState) (rng : Rng)
    (hcm : (cellAt grid row col).atoms + 1 <
      calculateCriticalMass row col grid.length (colsOf grid))
    (hwin : ∀ r, r < grid.length → ∀ c, c < (grid.getD r []).length →
      ((r : Int) - row).natAbs ≤ 2 → ((c : Int) - col).natAbs ≤ 2 →
      ∀ q, (cellAt grid r c).player = some q → q = p) :
    (Part000.evaluateStrategicMove grid row col p gs rng).1.aggressiveScore = 0 := by
  rw [part000_aggressiveScore_eq, territoryPenalty_zero grid row col p gs.isBaseMode rng hwin,
    enemyProximityScore_zero grid row col p gs.isBaseMode hwin,
    Part000.explosionCaptureSum, if_neg (by omega)]
  ring

def c5okGrid : Grid :=
  [[⟨none, 0⟩, ⟨none, 0⟩, ⟨none, 0⟩],
   [⟨none, 0⟩, ⟨some .red, 1⟩, ⟨none, 0⟩],
   [⟨none, 0⟩, ⟨none, 0⟩, ⟨none, 0⟩]]

theorem aggressive_zero_without_explosion_witness :
    (Part000.evaluateStrategicMove c5okGrid 1 1 .red c5gs ⟨fun _ => 0, 0⟩).1.aggressiveScore =
      0 :=
  aggressive_zero_without_explosion c5okGrid 1 1 .red c5gs ⟨fun _ => 0, 0⟩
    (by decide) (by decide)

namespace AiPlayer

/-- The `AIPersonality` of `aiPlayer.ts` (rival-targeting tuning). -/
structure AIPersonality where
  aggressiveness : ℚ
  defensiveness : ℚ
  baseHuntingThirst : ℚ
  powerUpHunting : ℚ
  territorialness : ℚ
  cornerPreference : ℚ
  spreadTendency : ℚ
  targetEnemy : Option PLAYER
deriving DecidableEq, Repr

/-- `generateAIPersonality` of `aiPlayer.ts`: a target-enemy draw followed by
seven trait draws into the more aggressive ranges. -/
def generateAIPersonality (rng : Rng) : AIPersonality × Rng :=
  let possibleEnemies : List PLAYER := [.red, .blue, .orange, .black]
  let (t, rng) := rng.next
  let targetEnemy := possibleEnemies.get? (⌊t * 4⌋).toNat
  let (r1, rng) := rng.next
  let (r2, rng) := rng.next
  let (r3, rng) := rng.next
  let (r4, rng) := rng.next
  let (r5, rng) := rng.next
  let (r6, rng) := rng.next
  let (r7, rng) := rng.next
  (⟨6/5 + r1 * (9/5), 4/5 + r2 * (11/5), 1 + r3 * 2, 5/2 + r4 * (1/2),
    4/5 + r5 * (17/10), 3/10 + r6 * (6/5), 1 + r7 * (3/2), targetEnemy⟩, rng)

abbrev PersonalityTable := PLAYER → Option AIPersonality

def emptyTable : PersonalityTable := fun _ => none

/-- `getPersonality` of `aiPlayer.ts`: on a miss it generates a personality,
re-draws the target enemy among the three players different from the owner,
caches and returns it; on a hit it returns the cached vector unchanged. -/
def getPersonality (s : PersonalityTable) (p : PLAYER) (rng : Rng) :
    AIPersonality × PersonalityTable × Rng :=
  match s p with
  | some pers => (pers, s, rng)
  | none =>
    let (pers0, rng) := generateAIPersonality rng
    let possibleEnemies := ([.red, .blue, .orange, .black] : List PLAYER).filter (fun q => q ≠ p)
    let (t, rng) := rng.next
    let pers := { pers0 with
      targetEnemy := possibleEnemies.get? (⌊t * (possibleEnemies.length : ℚ)⌋).toNat }
    (pers, fun q => if q = p then some pers else s q, rng)

/-- `resetPersonalities` of `aiPlayer.ts`: clear the whole table. -/
def resetPersonalities (_s : PersonalityTable) : PersonalityTable := fun _ => none

/-- The immediate-damage part of the aggressive section of `aiPlayer.ts`:
`100 * atoms` per enemy neighbor plus `1000` per enemy neighbor plus a flat
`200`, only when the placement reaches critical mass. -/
def immediateDamageSum (grid : Grid) (row col : Nat) (currentPlayer : PLAYER) : ℚ :=
  if calculateCriticalMass row col grid.length (colsOf grid) ≤
      (cellAt grid row col).atoms + 1 then
    ((getNeighborsForAI row col grid.length (colsOf grid)).map fun n =>
      match (cellAt grid n.1 n.2).player with
      | some q =>
        if q ≠ currentPlayer then
          ((cellAt grid n.1 n.2).atoms : ℚ) * 100 + 1000
        else 0
      | none => 0).sum + 200
  else 0

/-- The placement-strategy part of the aggressive section of `aiPlayer.ts`:
a -300 penalty for enemy-owned targets plus the explosion-timing bonus per
enemy neighbor. -/
def placementStrategyScore (grid : Grid) (row col : Nat) (currentPlayer : PLAYER) : ℚ :=
  (match (cellAt grid row col).player with
   | some q => if q ≠ currentPlayer then (-300 : ℚ) else 0
   | none => 0)
  + ((getNeighborsForAI row col grid.length (colsOf grid)).map fun n =>
      match (cellAt grid n.1 n.2).player with
      | some q =>
        if q ≠ currentPlayer then
          let ourTime : Int := (calculateCriticalMass row col grid.length (colsOf grid) : Int) -
            ((cellAt grid row col).atoms + 1 : Nat)
          let enemyTime : Int := (calculateCriticalMass n.1 n.2 grid.length (colsOf grid) : Int) -
            ((cellAt grid n.1 n.2).atoms : Nat)
          if ourTime ≤ enemyTime ∧ 0 ≤ ourTime then
            ((enemyTime - ourTime + 1 : Int) : ℚ) * 150
          else 0
        else 0
      | none => 0).sum

/-- `evaluateStrategicMove` of `aiPlayer.ts`, assembled from the shared
sections plus its own power-up, aggressive and base-threat sections. -/
def evaluateStrategicMove (grid : Grid) (row col : Nat) (currentPlayer : PLAYER)
    (gs : GameState) (rng : Rng) : StrategicEvaluation × Rng :=
  let rows := grid.length
  let cols := colsOf grid
  let cell := cellAt grid row col
  let criticalMass := calculateCriticalMass row col rows cols
  let powerUpScore : ℚ :=
    if gs.isBaseMode then
      match gs.powerUps with
      | some pus =>
        (match pus.find? (fun pu => pu.row == row && pu.col == col) with
         | some _ => (5000 : ℚ)
         | none => 0)
        + (pus.map fun pu =>
            let d := manhattan pu.row pu.col row col
            if d ≤ 3 then (4 - (d : ℚ)) * 500 else 0).sum
      | none => 0
    else 0
  let (territoryScore, enemyNeighborPenalty, rng) :=
    territorySection grid row col currentPlayer gs.isBaseMode rng
  let aggressiveScore :=
    -enemyNeighborPenalty + immediateDamageSum grid row col currentPlayer +
      (enemyProximityScore grid row col currentPlayer gs.isBaseMode +
        placementStrategyScore grid row col currentPlayer)
  let baseThreatScore : ℚ :=
    if gs.isBaseMode then
      match gs.hqs with
      | some l =>
        (l.map fun hq =>
          if hq.player ≠ currentPlayer then
            let d := manhattan hq.row hq.col row col
            if d ≤ 3 then
              (4 - (d : ℚ)) * 20 +
                (if criticalMass ≤ cell.atoms + 1 ∧ d ≤ 2 then
                  (if hq.player = currentPlayer then (120 : ℚ) else 40)
                 else 0)
            else 0
          else 0).sum
      | none => 0
    else 0
  let defensiveScore := defensiveScoreFor grid row col currentPlayer gs.isBaseMode gs.hqs
  let chainReactionScore : ℚ :=
    (calculateChainReactionPotential grid row col currentPlayer : ℚ) * 10
  (⟨aggressiveScore, defensiveScore, powerUpScore, chainReactionScore,
    territoryScore, baseThreatScore⟩, rng)

/-- `evaluateMove` of `aiPlayer.ts`: rival-targeting bonus, personality
weighting with the power-up floor multiplier, and two randomness terms. -/
def evaluateMove (grid : Grid) (row col : Nat) (currentPlayer : PLAYER)
    (gs : GameState) (s : PersonalityTable) (rng : Rng) :
    ℚ × PersonalityTable × Rng :=
  let (evaln0, rng) := evaluateStrategicMove grid row col currentPlayer gs rng
  let (pers, s, rng) := getPersonality s currentPlayer rng
  let (targetEnemyBonus, evaln) :=
    if gs.isBaseMode then
      match gs.hqs, pers.targetEnemy with
      | some l, some te =>
        match l.find? (fun hq => hq.player == te) with
        | some targetHQ =>
          let d := manhattan targetHQ.row targetHQ.col row col
          ((if d ≤ 3 then (4 - (d : ℚ)) * 50 * pers.baseHuntingThirst else 0),
           if targetHQ.player = te then
             { evaln0 with baseThreatScore := evaln0.baseThreatScore * 2 }
           else evaln0)
        | none => (0, evaln0)
      | _, _ => (0, evaln0)
    else (0, evaln0)
  let powerUpMultiplier := max 1 pers.powerUpHunting
  let base : ℚ :=
    evaln.powerUpScore * powerUpMultiplier
    + evaln.aggressiveScore * pers.aggressiveness * (5/2)
    + evaln.baseThreatScore * pers.aggressiveness * pers.baseHuntingThirst * 2
    + evaln.defensiveScore * pers.defensiveness * 2
    + evaln.territoryScore * pers.territorialness * pers.cornerPreference * (1/2)
    + evaln.chainReactionScore * pers.baseHuntingThirst * (13/10)
    + targetEnemyBonus
  let (r1, rng) := rng.next
  let base := base + ((r1 - 1/2) * 2 * (pers.baseHuntingThirst * (3/10))) * max 15 (|base| * (1/5))
  let (r2, rng) := rng.next
  let base := base + (r2 - 1/2) * 25 * pers.baseHuntingThirst
  (base, s, rng)

/-- Score the enumerated legal moves in order (the scoring loop of `getBestMove`). -/
def scoreMoves (grid : Grid) (p : PLAYER) (gs : GameState) :
    List AIMove → PersonalityTable → Rng → List AIMove × PersonalityTable × Rng
  | [], s, rng => ([], s, rng)
  | m :: rest, s, rng =>
    let (sc, s', rng') := evaluateMove grid m.row m.col p gs s rng
    let (tail, s'', rng'') := scoreMoves grid p gs rest s' rng'
    (⟨m.row, m.col, sc⟩ :: tail, s'', rng'')

/-- The fixed selection window of `aiPlayer.ts`:
`Math.max(1, Math.min(3, validMoves.length))`, independent of personality. -/
def topMoveCount (n : Nat) : Nat := max 1 (min 3 n)

/-- The power-up override scan of `getBestMove`: in base mode, the first
legal move that lands exactly on a power-up. -/
def overrideMove (validMoves : List AIMove) (isBaseMode : Bool)
    (powerUps : Option (List PowerUpCell)) : Option AIMove :=
  if isBaseMode then
    match powerUps with
    | some pus => validMoves.find? fun m => pus.any fun pu => pu.row == m.row && pu.col == m.col
    | none => none
  else none

/-- The emergency-defense re-sort of `getBestMove`: when an enemy cell with at
least 2 atoms sits within Chebyshev distance 2 of the own HQ, moves within
Manhattan distance 2 of the HQ gain a flat 2000 and the list is re-sorted. -/
def defensiveResort (grid : Grid) (p : PLAYER) (isBaseMode : Bool)
    (hqs : Option (List HQCell)) (sorted : List AIMove) : List AIMove :=
  if isBaseMode then
    match hqs with
    | some l =>
      match l.find? (fun hq => hq.player == p) with
      | some ourHQ =>
        let criticalThreat := (rangeIncl (ourHQ.row - 2)
            (min (grid.length - 1) (ourHQ.row + 2))).any fun r =>
          (rangeIncl (ourHQ.col - 2) (min (colsOf grid - 1) (ourHQ.col + 2))).any fun c =>
            match (cellAt grid r c).player with
            | some q => q != p && decide (2 ≤ (cellAt grid r c).atoms)
            | none => false
        if criticalThreat then
          (sorted.map fun m =>
            if manhattan m.row m.col ourHQ.row ourHQ.col ≤ 2 then
              ⟨m.row, m.col, m.score + 2000⟩
            else m).mergeSort byScoreDesc
        else sorted
      | none => sorted
    | none => sorted
  else sorted

/-- `getBestMove` of `aiPlayer.ts`: personality, legal moves, the power-up
override, direct scoring, descending sort, the emergency-defense re-sort, and
a uniform draw among the top `max(1, min(3, n))` candidates. -/
def getBestMove (grid : Grid) (p : PLAYER) (isBaseMode : Bool)
    (hqs : Option (List HQCell)) (powerUps : Option (List PowerUpCell))
    (s : PersonalityTable) (rng : Rng) : Option AIMove × PersonalityTable × Rng :=
  let (_pers, s, rng) := getPersonality s p rng
  let gs : GameState := ⟨grid, p, isBaseMode, hqs, powerUps⟩
  let validMoves := getValidMoves grid p isBaseMode hqs
  if validMoves.isEmpty then (none, s, rng)
  else
    match overrideMove validMoves isBaseMode powerUps with
    | some m => (some ⟨m.row, m.col, 10000⟩, s, rng)
    | none =>
      let (scored, s, rng) := scoreMoves grid p gs validMoves s rng
      let sorted := scored.mergeSort byScoreDesc
      let final := defensiveResort grid p isBaseMode hqs sorted
      let (rsel, rng) := rng.next
      let bestIdx := (⌊rsel * (topMoveCount validMoves.length : ℚ)⌋).toNat
      (some (final.getD bestIdx ⟨0, 0, 0⟩), s, rng)

/-- `getAIMove` of `aiPlayer.ts`: the top-level entry point delegates to
`getBestMove` (the `try`/`catch` cannot fire in the pure model). -/
def getAIMove (grid : Grid) (p : PLAYER) (isBaseMode : Bool)
    (hqs : Option (List HQCell)) (powerUps : Option (List PowerUpCell))
    (s : PersonalityTable) (rng : Rng) : Option AIMove × PersonalityTable × Rng :=
  getBestMove grid p isBaseMode hqs powerUps s rng

end AiPlayer

/-- C6: the personality store of `aiPlayer.ts` is stable — a second call for
the same player returns exactly the cached vector, leaves the table unchanged
and consumes no randomness — and `resetPersonalities` empties the whole
table, so the next call creates and caches a fresh entry. -/
theorem personality_cached_stable_reset (s : AiPlayer.PersonalityTable) (p : PLAYER)
    (rng rng2 rng3 : Rng) :
    AiPlayer.getPersonality (AiPlayer.getPersonality s p rng).2.1 p rng2 =
      ((AiPlayer.getPersonality s p rng).1, (AiPlayer.getPersonality s p rng).2.1, rng2) ∧
    (∀ q, AiPlayer.resetPersonalities s q = none) ∧
    (AiPlayer.getPersonality (AiPlayer.resetPersonalities s) p rng3).2.1 p =
      some (AiPlayer.getPersonality (AiPlayer.resetPersonalities s) p rng3).1 := by
  have hkey : ∀ (s0 : AiPlayer.PersonalityTable) (r0 : Rng),
      (AiPlayer.getPersonality s0 p r0).2.1 p = some (AiPlayer.getPersonality s0 p r0).1 := by
    intro s0 r0
    unfold AiPlayer.getPersonality
    cases h : s0 p with
    | some pers => simp [h]
    | none => simp [h]
  refine ⟨?_, fun q => rfl, hkey _ rng3⟩
  have h := hkey s rng
  conv_lhs => rw [AiPlayer.getPersonality, h]

/-- Each enumerated move really is legal (and carries placeholder score 0). -/
theorem mem_getValidMoves {grid : Grid} {p : PLAYER} {isBaseMode : Bool}
    {hqs : Option (List HQCell)} {m : AIMove} (h : m ∈ getValidMoves grid p isBaseMode hqs) :
    isValidMoveForAI grid m.row m.col p isBaseMode hqs = true := by
  obtain ⟨rc, _hrc, he⟩ := List.mem_filterMap.1 h
  split at he
  · rename_i hvalid
    obtain rfl : (⟨rc.1, rc.2, 0⟩ : AIMove) = m := Option.some_injective _ he
    exact hvalid
  · exact absurd he (by simp)

/-- C1 (amended): the `aiPlayer.ts` selector has the power-up override — in
base mode, when exactly one legal move coincides with a power-up, it returns
that cell immediately with the maximal score 10000, for every personality
state and every random stream (`part000_ignores_powerup_cex` shows the
`part_000` tuning lacks this override). -/
theorem powerup_override_selects_powerup (grid : Grid) (p : PLAYER)
    (hqs : Option (List HQCell)) (pus : List PowerUpCell)
    (s : AiPlayer.PersonalityTable) (rng : Rng) (m : AIMove)
    (hm : m ∈ getValidMoves grid p true hqs)
    (hpu : (pus.any fun pu => pu.row == m.row && pu.col == m.col) = true)
    (huniq : ∀ m' ∈ getValidMoves grid p true hqs,
      (pus.any fun pu => pu.row == m'.row && pu.col == m'.col) = true → m' = m) :
    (AiPlayer.getBestMove grid p true hqs (some pus) s rng).1 =
      some ⟨m.row, m.col, 10000⟩ := by
  have hne : (getValidMoves grid p true hqs).isEmpty = false := by
    cases hvm : getValidMoves grid p true hqs with
    | nil => rw [hvm] at hm; exact absurd hm (List.not_mem_nil m)
    | cons a t => rfl
  have hfsome : ((getValidMoves grid p true hqs).find? fun m' =>
      pus.any fun pu => pu.row == m'.row && pu.col == m'.col).isSome := by
    rw [List.find?_isSome]
    exact ⟨m, hm, hpu⟩
  obtain ⟨y, hy⟩ := Option.isSome_iff_exists.1 hfsome
  have hpy := List.find?_some hy
  have hym : y = m := huniq y (List.mem_of_find?_eq_some hy) (by simpa using hpy)
  subst hym
  simp only [AiPlayer.getBestMove, AiPlayer.overrideMove, hne, Bool.false_eq_true, if_false,
    if_pos rfl, hy]
  simp

theorem powerup_override_selects_powerup_witness :
    (AiPlayer.getBestMove c1grid .red true (some c1hqs) (some c1pus)
        AiPlayer.emptyTable ⟨c1stream, 0⟩).1 = some ⟨0, 1, 10000⟩ :=
  powerup_override_selects_powerup c1grid .red (some c1hqs) c1pus AiPlayer.emptyTable
    ⟨c1stream, 0⟩ ⟨0, 1, 0⟩ (by decide) (by decide) (by decide)

/-- C9: when no coordinate at all is a legal move for the player, both
engines return no move (`null`) rather than a move or an error. -/
theorem no_legal_moves_returns_none (grid : Grid) (p : PLAYER) (isBaseMode : Bool)
    (hqs : Option (List HQCell)) (powerUps : Option (List PowerUpCell))
    (s1 : AiPlayer.PersonalityTable) (s2 : Part000.PersonalityTable) (rng1 rng2 : Rng)
    (hnone : ∀ row col : Int, isValidMoveForAI grid row col p isBaseMode hqs = false) :
    (AiPlayer.getAIMove grid p isBaseMode hqs powerUps s1 rng1).1 = none ∧
    (Part000.getAIMove grid p isBaseMode hqs powerUps s2 rng2).1 = none := by
  have hvm : getValidMoves grid p isBaseMode hqs = [] := by
    rw [getValidMoves, List.filterMap_eq_nil_iff]
    intro rc _hrc
    rw [hnone rc.1 rc.2]
    rfl
  constructor
  · simp [AiPlayer.getAIMove, AiPlayer.getBestMove, hvm]
  · simp [Part000.getAIMove, Part000.getBestMove, hvm, Part000.scoreMoves]

def c9grid : Grid := [[⟨some .blue, 1⟩]]

theorem no_legal_moves_returns_none_witness :
    (AiPlayer.getAIMove c9grid .red false none none AiPlayer.emptyTable ⟨fun _ => 0, 0⟩).1 =
        none ∧
    (Part000.getAIMove c9grid .red false none none Part000.emptyTable ⟨fun _ => 0, 0⟩).1 =
        none := by
  refine no_legal_moves_returns_none c9grid .red false none none AiPlayer.emptyTable
    Part000.emptyTable ⟨fun _ => 0, 0⟩ ⟨fun _ => 0, 0⟩ ?_
  intro row col
  by_cases hb : row < 0 ∨ ((c9grid.length : Int) ≤ row) ∨ col < 0 ∨ ((colsOf c9grid : Int) ≤ col)
  · rw [isValidMoveForAI, if_pos hb]
  · push_neg at hb
    have h1 : c9grid.length = 1 := rfl
    have h2 : colsOf c9grid = 1 := rfl
    have hr : row = 0 := by omega
    have hc : col = 0 := by omega
    subst hr
    subst hc
    decide

/-! Stream preservation: every engine step only advances the random cursor,
never the stream itself.  Needed to carry the `Math.random() ∈ [0,1)` range
hypothesis through a run. -/

theorem penaltyStep_stream (grid : Grid) (p : PLAYER) (acc : ℚ × Rng) (n : Nat × Nat) :
    (penaltyStep grid p acc n).2.stream = acc.2.stream := by
  rw [penaltyStep]
  cases (cellAt grid n.1 n.2).player with
  | none => rfl
  | some q =>
    by_cases h : q ≠ p
    · simp [h, Rng.next]
    · simp [h]

theorem foldl_penaltyStep_stream (grid : Grid) (p : PLAYER) (l : List (Nat × Nat)) :
    ∀ acc : ℚ × Rng, ((l.foldl (penaltyStep grid p) acc).2).stream = acc.2.stream := by
  induction l with
  | nil => exact fun acc => rfl
  | cons a t ih =>
    intro acc
    rw [List.foldl_cons, ih (penaltyStep grid p acc a), penaltyStep_stream]

theorem territorySection_stream (grid : Grid) (row col : Nat) (p : PLAYER)
    (isBaseMode : Bool) (rng : Rng) :
    (territorySection grid row col p isBaseMode rng).2.2.stream = rng.stream := by
  cases isBaseMode with
  | true => rfl
  | false =>
    simp only [territorySection, Bool.not_false, if_true]
    split
    · exact foldl_penaltyStep_stream grid p _ _
    · exact foldl_penaltyStep_stream grid p _ _

theorem part000_getPersonality_stream (s : Part000.PersonalityTable) (p : PLAYER) (rng : Rng) :
    (Part000.getPersonality s p rng).2.2.stream = rng.stream := by
  rw [Part000.getPersonality]
  cases s p <;> rfl

theorem part000_evaluateMove_stream (grid : Grid) (row col : Nat) (p : PLAYER)
    (gs : GameState) (s : Part000.PersonalityTable) (rng : Rng) :
    (Part000.evaluateMove grid row col p gs s rng).2.2.stream = rng.stream := by
  have heq : (Part000.evaluateMove grid row col p gs s rng).2.2 =
      ((Part000.getPersonality s p
          (Part000.evaluateStrategicMove grid row col p gs rng).2).2.2).next.2.next.2 := rfl
  have heq2 : (Part000.evaluateStrategicMove grid row col p gs rng).2 =
      (territorySection grid row col p gs.isBaseMode rng).2.2 := rfl
  rw [heq]
  show (Part000.getPersonality s p (Part000.evaluateStrategicMove grid row col p gs rng).2).2.2.stream = _
  rw [part000_getPersonality_stream, heq2, territorySection_stream]

theorem part000_scoreMoves_stream (grid : Grid) (p : PLAYER) (gs : GameState)
    (l : List AIMove) : ∀ (s : Part000.PersonalityTable) (rng : Rng),
    (Part000.scoreMoves grid p gs l s rng).2.2.stream = rng.stream := by
  induction l with
  | nil => exact fun s rng => rfl
  | cons m rest ih =>
    intro s rng
    show (Part000.scoreMoves grid p gs rest
        (Part000.evaluateMove grid m.row m.col p gs s rng).2.1
        (Part000.evaluateMove grid m.row m.col p gs s rng).2.2).2.2.stream = rng.stream
    rw [ih, part000_evaluateMove_stream]

theorem aiPlayer_getPersonality_stream (s : AiPlayer.PersonalityTable) (p : PLAYER) (rng : Rng) :
    (AiPlayer.getPersonality s p rng).2.2.stream = rng.stream := by
  rw [AiPlayer.getPersonality]
  cases s p <;> rfl

theorem aiPlayer_evaluateMove_stream (grid : Grid) (row col : Nat) (p : PLAYER)
    (gs : GameState) (s : AiPlayer.PersonalityTable) (rng : Rng) :
    (AiPlayer.evaluateMove grid row col p gs s rng).2.2.stream = rng.stream := by
  have heq : (AiPlayer.evaluateMove grid row col p gs s rng).2.2 =
      ((AiPlayer.getPersonality s p
          (AiPlayer.evaluateStrategicMove grid row col p gs rng).2).2.2).next.2.next.2 := rfl
  have heq2 : (AiPlayer.evaluateStrategicMove grid row col p gs rng).2 =
      (territorySection grid row col p gs.isBaseMode rng).2.2 := rfl
  rw [heq]
  show (AiPlayer.getPersonality s p (AiPlayer.evaluateStrategicMove grid row col p gs rng).2).2.2.stream = _
  rw [aiPlayer_getPersonality_stream, heq2, territorySection_stream]

theorem aiPlayer_scoreMoves_stream (grid : Grid) (p : PLAYER) (gs : GameState)
    (l : List AIMove) : ∀ (s : AiPlayer.PersonalityTable) (rng : Rng),
    (AiPlayer.scoreMoves grid p gs l s rng).2.2.stream = rng.stream := by
  induction l with
  | nil => exact fun s rng => rfl
  | cons m rest ih =>
    intro s rng
    show (AiPlayer.scoreMoves grid p gs rest
        (AiPlayer.evaluateMove grid m.row m.col p gs s rng).2.1
        (AiPlayer.evaluateMove grid m.row m.col p gs s rng).2.2).2.2.stream = rng.stream
    rw [ih, aiPlayer_evaluateMove_stream]

/-! Coordinate bookkeeping for the selection pipeline. -/

theorem part000_scoreMoves_coords (grid : Grid) (p : PLAYER) (gs : GameState)
    (l : List AIMove) : ∀ (s : Part000.PersonalityTable) (rng : Rng) (x : AIMove),
    x ∈ (Part000.scoreMoves grid p gs l s rng).1 →
      ∃ m ∈ l, x.row = m.row ∧ x.col = m.col := by
  induction l with
  | nil => intro s rng x hx; exact absurd hx (List.not_mem_nil x)
  | cons m rest ih =>
    intro s rng x hx
    have hx' : x = (⟨m.row, m.col,
          (Part000.evaluateMove grid m.row m.col p gs s rng).1⟩ : AIMove) ∨
        x ∈ (Part000.scoreMoves grid p gs rest
          (Part000.evaluateMove grid m.row m.col p gs s rng).2.1
          (Part000.evaluateMove grid m.row m.col p gs s rng).2.2).1 :=
      List.mem_cons.1 hx
    rcases hx' with rfl | hx'
    · exact ⟨m, List.mem_cons_self m rest, rfl, rfl⟩
    · obtain ⟨y, hy, h1, h2⟩ := ih _ _ x hx'
      exact ⟨y, List.mem_cons_of_mem m hy, h1, h2⟩

theorem part000_scoreMoves_length (grid : Grid) (p : PLAYER) (gs : GameState)
    (l : List AIMove) : ∀ (s : Part000.PersonalityTable) (rng : Rng),
    (Part000.scoreMoves grid p gs l s rng).1.length = l.length := by
  induction l with
  | nil => exact fun s rng => rfl
  | cons m rest ih =>
    intro s rng
    show ((⟨m.row, m.col, _⟩ : AIMove) :: (Part000.scoreMoves grid p gs rest _ _).1).length =
      rest.length + 1
    rw [List.length_cons, ih]

theorem aiPlayer_scoreMoves_coords (grid : Grid) (p : PLAYER) (gs : GameState)
    (l : List AIMove) : ∀ (s : AiPlayer.PersonalityTable) (rng : Rng) (x : AIMove),
    x ∈ (AiPlayer.scoreMoves grid p gs l s rng).1 →
      ∃ m ∈ l, x.row = m.row ∧ x.col = m.col := by
  induction l with
  | nil => intro s rng x hx; exact absurd hx (List.not_mem_nil x)
  | cons m rest ih =>
    intro s rng x hx
    have hx' : x = (⟨m.row, m.col,
          (AiPlayer.evaluateMove grid m.row m.col p gs s rng).1⟩ : AIMove) ∨
        x ∈ (AiPlayer.scoreMoves grid p gs rest
          (AiPlayer.evaluateMove grid m.row m.col p gs s rng).2.1
          (AiPlayer.evaluateMove grid m.row m.col p gs s rng).2.2).1 :=
      List.mem_cons.1 hx
    rcases hx' with rfl | hx'
    · exact ⟨m, List.mem_cons_self m rest, rfl, rfl⟩
    · obtain ⟨y, hy, h1, h2⟩ := ih _ _ x hx'
      exact ⟨y, List.mem_cons_of_mem m hy, h1, h2⟩

theorem aiPlayer_scoreMoves_length (grid : Grid) (p : PLAYER) (gs : GameState)
    (l : List AIMove) : ∀ (s : AiPlayer.PersonalityTable) (rng : Rng),
    (AiPlayer.scoreMoves grid p gs l s rng).1.length = l.length := by
  induction l with
  | nil => exact fun s rng => rfl
  | cons m rest ih =>
    intro s rng
    show ((⟨m.row, m.col, _⟩ : AIMove) :: (AiPlayer.scoreMoves grid p gs rest _ _).1).length =
      rest.length + 1
    rw [List.length_cons, ih]

theorem defensiveResort_coords (grid : Grid) (p : PLAYER) (isBaseMode : Bool)
    (hqs : Option (List HQCell)) (sorted : List AIMove) (x : AIMove)
    (hx : x ∈ AiPlayer.defensiveResort grid p isBaseMode hqs sorted) :
    ∃ y ∈ sorted, x.row = y.row ∧ x.col = y.col := by
  rw [AiPlayer.defensiveResort.eq_def] at hx
  split at hx
  · split at hx
    · split at hx
      · dsimp only at hx
        split at hx
        · rw [List.mem_mergeSort] at hx
          obtain ⟨y, hy, hmap⟩ := List.mem_map.1 hx
          refine ⟨y, hy, ?_⟩
          split at hmap <;> rw [← hmap] <;> exact ⟨rfl, rfl⟩
        · exact ⟨x, hx, rfl, rfl⟩
      · exact ⟨x, hx, rfl, rfl⟩
    · exact ⟨x, hx, rfl, rfl⟩
  · exact ⟨x, hx, rfl, rfl⟩

theorem defensiveResort_length (grid : Grid) (p : PLAYER) (isBaseMode : Bool)
    (hqs : Option (List HQCell)) (sorted : List AIMove) :
    (AiPlayer.defensiveResort grid p isBaseMode hqs sorted).length = sorted.length := by
  rw [AiPlayer.defensiveResort.eq_def]
  split
  · split
    · split
      · dsimp only
        split
        · rw [List.length_mergeSort, List.length_map]
        · rfl
      · rfl
    · rfl
  · rfl

theorem overrideMove_mem (validMoves : List AIMove) (isBaseMode : Bool)
    (powerUps : Option (List PowerUpCell)) (m : AIMove)
    (h : AiPlayer.overrideMove validMoves isBaseMode powerUps = some m) :
    m ∈ validMoves := by
  rw [AiPlayer.overrideMove.eq_def] at h
  split at h
  · split at h
    · exact List.mem_of_find?_eq_some h
    · exact absurd h (by simp)
  · exact absurd h (by simp)

/-- `Math.floor(Math.random() * k)` lands strictly below `k`. -/
theorem floorIdx_lt (rsel : ℚ) (k : Nat) (h0 : 0 ≤ rsel) (h1 : rsel < 1) (hk : 1 ≤ k) :
    (⌊rsel * (k : ℚ)⌋).toNat < k := by
  have hkq : (0 : ℚ) < (k : ℚ) := by exact_mod_cast hk
  have hlt : rsel * (k : ℚ) < (k : ℚ) := by
    calc rsel * (k : ℚ) < 1 * (k : ℚ) := mul_lt_mul_of_pos_right h1 hkq
    _ = (k : ℚ) := one_mul _
  have hfl : ⌊rsel * (k : ℚ)⌋ < (k : Int) := by
    rw [Int.floor_lt]
    push_cast
    exact hlt
  have hnn : (0 : Int) ≤ ⌊rsel * (k : ℚ)⌋ := Int.floor_nonneg.2 (by positivity)
  omega

/-- C10: whatever the selector of either engine returns is a legal move: its
coordinates come from the enumerated `getValidMoves` list and hence satisfy
`isValidMoveForAI` (and in particular lie within bounds). -/
theorem selected_move_is_valid (grid : Grid) (p : PLAYER) (isBaseMode : Bool)
    (hqs : Option (List HQCell)) (powerUps : Option (List PowerUpCell))
    (s1 : AiPlayer.PersonalityTable) (s2 : Part000.PersonalityTable) (rng1 rng2 : Rng)
    (h1 : ∀ i, 0 ≤ rng1.stream i ∧ rng1.stream i < 1)
    (h2 : ∀ i, 0 ≤ rng2.stream i ∧ rng2.stream i < 1) :
    (∀ m, (AiPlayer.getBestMove grid p isBaseMode hqs powerUps s1 rng1).1 = some m →
      isValidMoveForAI grid m.row m.col p isBaseMode hqs = true) ∧
    (∀ m, (Part000.getBestMove grid p isBaseMode hqs powerUps s2 rng2).1 = some m →
      isValidMoveForAI grid m.row m.col p isBaseMode hqs = true) := by
  constructor
  · intro m hm
    by_cases hempty : (getValidMoves grid p isBaseMode hqs).isEmpty = true
    · simp [AiPlayer.getBestMove, hempty] at hm
    · have hlen1 : 1 ≤ (getValidMoves grid p isBaseMode hqs).length := by
        cases h : getValidMoves grid p isBaseMode hqs with
        | nil => rw [h] at hempty; exact absurd rfl hempty
        | cons a t => simp
      cases hov : AiPlayer.overrideMove (getValidMoves grid p isBaseMode hqs)
          isBaseMode powerUps with
      | some m0 =>
        simp only [AiPlayer.getBestMove, if_neg hempty, hov] at hm
        obtain rfl : (⟨m0.row, m0.col, 10000⟩ : AIMove) = m := Option.some_injective _ hm
        have hval := mem_getValidMoves (overrideMove_mem _ _ _ m0 hov)
        exact hval
      | none =>
        simp only [AiPlayer.getBestMove, if_neg hempty, hov] at hm
        set vm := getValidMoves grid p isBaseMode hqs with hvm
        set SM := AiPlayer.scoreMoves grid p ⟨grid, p, isBaseMode, hqs, powerUps⟩ vm
          (AiPlayer.getPersonality s1 p rng1).2.1
          (AiPlayer.getPersonality s1 p rng1).2.2 with hSM
        set final := AiPlayer.defensiveResort grid p isBaseMode hqs
          (SM.1.mergeSort byScoreDesc) with hfinal
        set idx := (⌊SM.2.2.next.1 * (AiPlayer.topMoveCount vm.length : ℚ)⌋).toNat with hidxdef
        obtain rfl := (Option.some_injective _ hm).symm
        have hrsel : 0 ≤ SM.2.2.next.1 ∧ SM.2.2.next.1 < 1 := by
          rw [hSM]
          show 0 ≤ (AiPlayer.scoreMoves _ _ _ _ _ _).2.2.stream _ ∧
            (AiPlayer.scoreMoves _ _ _ _ _ _).2.2.stream _ < 1
          rw [aiPlayer_scoreMoves_stream, aiPlayer_getPersonality_stream]
          exact h1 _
        have hk1 : 1 ≤ AiPlayer.topMoveCount vm.length := Nat.le_max_left 1 _
        have hkle : AiPlayer.topMoveCount vm.length ≤ vm.length := by
          rw [AiPlayer.topMoveCount]
          omega
        have hflen : final.length = vm.length := by
          rw [hfinal, defensiveResort_length, List.length_mergeSort, hSM,
            aiPlayer_scoreMoves_length]
        have hidxlt : idx < final.length := by
          rw [hidxdef, hflen]
          have := floorIdx_lt SM.2.2.next.1 (AiPlayer.topMoveCount vm.length)
            hrsel.1 hrsel.2 hk1
          omega
        have hmemb := getD_mem_of_lt final idx (⟨0, 0, 0⟩ : AIMove) hidxlt
        rw [hfinal] at hmemb
        obtain ⟨y, hy, hyr, hyc⟩ := defensiveResort_coords _ _ _ _ _ _ hmemb
        rw [List.mem_mergeSort] at hy
        rw [hSM] at hy
        obtain ⟨z, hz, hzr, hzc⟩ := aiPlayer_scoreMoves_coords _ _ _ _ _ _ _ hy
        rw [hyr, hzr, hyc, hzc]
        exact mem_getValidMoves hz
  · intro m hm
    simp only [Part000.getBestMove] at hm
    set vm := getValidMoves grid p isBaseMode hqs with hvm
    set SM := Part000.scoreMoves grid p ⟨grid, p, isBaseMode, hqs, powerUps⟩ vm
      (Part000.getPersonality s2 p rng2).2.1
      (Part000.getPersonality s2 p rng2).2.2 with hSM
    by_cases hempty : SM.1.isEmpty = true
    · rw [if_pos hempty] at hm
      exact absurd hm (by simp)
    · rw [if_neg hempty] at hm
      set srt := SM.1.mergeSort byScoreDesc with hsrt
      set idx := (⌊SM.2.2.next.1 *
        (min (Part000.topMovesCount (Part000.getPersonality s2 p rng2).1.riskTaking
          SM.1.length) srt.length : ℚ)⌋).toNat with hidxdef
      obtain rfl := (Option.some_injective _ hm).symm
      have hslen : 1 ≤ SM.1.length := by
        cases h : SM.1 with
        | nil => rw [h] at hempty; exact absurd rfl hempty
        | cons a t => simp [h]
      have hrsel : 0 ≤ SM.2.2.next.1 ∧ SM.2.2.next.1 < 1 := by
        rw [hSM]
        show 0 ≤ (Part000.scoreMoves _ _ _ _ _ _).2.2.stream _ ∧
          (Part000.scoreMoves _ _ _ _ _ _).2.2.stream _ < 1
        rw [part000_scoreMoves_stream, part000_getPersonality_stream]
        exact h2 _
      have hsrtlen : srt.length = SM.1.length := by
        rw [hsrt, List.length_mergeSort]
      have hk1 : 1 ≤ min (Part000.topMovesCount
          (Part000.getPersonality s2 p rng2).1.riskTaking SM.1.length) srt.length := by
        have ht1 : 1 ≤ Part000.topMovesCount
            (Part000.getPersonality s2 p rng2).1.riskTaking SM.1.length :=
          Nat.le_max_left 1 _
        omega
      have hidxlt : idx < srt.length := by
        rw [hidxdef]
        have := floorIdx_lt SM.2.2.next.1 (min (Part000.topMovesCount
          (Part000.getPersonality s2 p rng2).1.riskTaking SM.1.length) srt.length)
          hrsel.1 hrsel.2 hk1
        rw [Nat.cast_min] at this
        omega
      have hmemb := getD_mem_of_lt srt idx (⟨0, 0, 0⟩ : AIMove) hidxlt
      rw [hsrt, List.mem_mergeSort, hSM] at hmemb
      obtain ⟨z, hz, hzr, hzc⟩ := part000_scoreMoves_coords _ _ _ _ _ _ _ hmemb
      rw [hzr, hzc]
      exact mem_getValidMoves hz

def c10grid : Grid := [[⟨none, 0⟩]]

def c10agrid : Grid :=
  [[⟨none, 0⟩, ⟨none, 0⟩], [⟨none, 0⟩, ⟨none, 0⟩]]

def c10hqs : List HQCell := [⟨0, 0, .red, 3⟩]

def c10pus : List PowerUpCell := [⟨0, 1, .heart⟩]

def c10zeroStream : Rng := ⟨fun _ => 0, 0⟩

/-- When the power-up override fires, `getBestMove` returns that move directly. -/
theorem getBestMove_override_eq (grid : Grid) (p : PLAYER) (hqs : Option (List HQCell))
    (powerUps : Option (List PowerUpCell)) (s : AiPlayer.PersonalityTable) (rng : Rng)
    (m0 : AIMove) (hne : (getValidMoves grid p true hqs).isEmpty = false)
    (hov : AiPlayer.overrideMove (getValidMoves grid p true hqs) true powerUps = some m0) :
    (AiPlayer.getBestMove grid p true hqs powerUps s rng).1 =
      some ⟨m0.row, m0.col, 10000⟩ := by
  simp only [AiPlayer.getBestMove, hne, Bool.false_eq_true, if_false, hov]

theorem selected_move_is_valid_witness :
    isValidMoveForAI c10agrid 0 1 .red true (some c10hqs) = true ∧
    isValidMoveForAI c10grid 0 0 .blue false none = true := by
  have hs : ∀ i, 0 ≤ c10zeroStream.stream i ∧ c10zeroStream.stream i < 1 :=
    fun i => ⟨le_refl 0, by norm_num [c10zeroStream]⟩
  have h := selected_move_is_valid c10agrid .red true (some c10hqs) (some c10pus)
    AiPlayer.emptyTable Part000.emptyTable c10zeroStream c10zeroStream hs hs
  have h2 := selected_move_is_valid c10grid .blue false none none AiPlayer.emptyTable
    Part000.emptyTable c10zeroStream c10zeroStream hs hs
  exact ⟨h.1 ⟨0, 1, 10000⟩ (getBestMove_override_eq c10agrid .red (some c10hqs)
      (some c10pus) AiPlayer.emptyTable c10zeroStream ⟨0, 1, 0⟩ (by decide) (by decide)),
    h2.2 ⟨0, 0, -369/125⟩ (by with_unfolding_all decide)⟩

/-!
Claim C7 fixtures: an empty 3×3 classic board for red.  With the all-zero
stream every personality trait of `aiPlayer.ts` sits at the minimum of its
range (`baseHuntingThirst = 1`, the trait scaling all randomness), i.e. the
most conservative personality the generator can produce.  Stream A differs
from the all-zero stream B only in the final selection draw (9/10; all draws
lie in `[0,1)`).
-/

def c7grid : Grid :=
  [[⟨none, 0⟩, ⟨none, 0⟩, ⟨none, 0⟩],
   [⟨none, 0⟩, ⟨none, 0⟩, ⟨none, 0⟩],
   [⟨none, 0⟩, ⟨none, 0⟩, ⟨none, 0⟩]]

def c7streamA : Rng := ⟨fun i => if i = 63 then 9/10 else 0, 0⟩

def c7streamB : Rng := ⟨fun _ => 0, 0⟩

/-- C7 counterexample: in `aiPlayer.ts` the selection window is not derived
from any personality trait — with the minimal (most conservative) trait
vector the selector still samples among the top three candidates: changing
only the final draw moves the returned cell from the top-ranked (0,0) to the
third-ranked (2,0). -/
theorem aiPlayer_topk_ignores_personality_cex :
    ((AiPlayer.getBestMove c7grid .red false none none AiPlayer.emptyTable
        c7streamA).1.map fun m => (m.row, m.col)) = some (2, 0) ∧
    ((AiPlayer.getBestMove c7grid .red false none none AiPlayer.emptyTable
        c7streamB).1.map fun m => (m.row, m.col)) = some (0, 0) ∧
    (((AiPlayer.getBestMove c7grid .red false none none AiPlayer.emptyTable
        c7streamA).2.1 .red).map fun pers => pers.baseHuntingThirst) = some 1 := by
  decide!

/-- C7 (amended): only the `part_000` tuning derives the top-k window from
the riskTaking trait: the selection index always falls inside the effective
window `min(topMovesCount, n)`, and for lists of at least two candidates the
maximal trait value (2.4) yields a strictly larger effective window than the
minimal one (0.2); the `aiPlayer.ts` tuning instead uses the fixed window
`max(1, min(3, n))` for every personality. -/
theorem topk_window_part000_monotone (n : Nat) (risk rsel : ℚ)
    (hn : 2 ≤ n) (h0 : 0 ≤ rsel) (h1 : rsel < 1) :
    min (Part000.topMovesCount (1/5) n) n < min (Part000.topMovesCount (12/5) n) n ∧
    (⌊rsel * (min (Part000.topMovesCount risk n) n : ℚ)⌋).toNat <
      min (Part000.topMovesCount risk n) n ∧
    AiPlayer.topMoveCount n = max 1 (min 3 n) := by
  refine ⟨?_, ?_, rfl⟩
  · have hlow : (⌈(n : ℚ) * (1/10 + 1/5 * (2/5))⌉ : Int) ≤ (n : Int) - 1 := by
      rw [Int.ceil_le]
      push_cast
      have hq : (2 : ℚ) ≤ (n : ℚ) := by exact_mod_cast hn
      linarith
    have hhigh : (n : Int) ≤ ⌈(n : ℚ) * (1/10 + 12/5 * (2/5))⌉ := by
      have hle : (n : ℚ) ≤ (n : ℚ) * (1/10 + 12/5 * (2/5)) := by
        have hq : (0 : ℚ) ≤ (n : ℚ) := by positivity
        nlinarith
      calc (n : Int) = ⌈((n : Int) : ℚ)⌉ := (Int.ceil_intCast n).symm
      _ ≤ ⌈(n : ℚ) * (1/10 + 12/5 * (2/5))⌉ := by
          apply Int.ceil_le_ceil
          push_cast
          exact hle
    rw [Part000.topMovesCount, Part000.topMovesCount]
    omega
  · have hk1 : 1 ≤ min (Part000.topMovesCount risk n) n := by
      have ht : 1 ≤ Part000.topMovesCount risk n := Nat.le_max_left 1 _
      omega
    have := floorIdx_lt rsel (min (Part000.topMovesCount risk n) n) h0 h1 hk1
    rw [Nat.cast_min] at this
    exact this

theorem topk_window_part000_monotone_witness :
    min (Part000.topMovesCount (1/5) 10) 10 < min (Part000.topMovesCount (12/5) 10) 10 ∧
    (⌊(1/2 : ℚ) * (min (Part000.topMovesCount 1 10) 10 : ℚ)⌋).toNat <
      min (Part000.topMovesCount 1 10) 10 ∧
    AiPlayer.topMoveCount 10 = max 1 (min 3 10) :=
  topk_window_part000_monotone 10 1 (1/2) (by norm_num) (by norm_num) (by norm_num)
